import Mathlib

/-!
# A rotating triangle on WebGL: the render loop of `main.go`

A shallow embedding of `src/main.go` (a Go/WebAssembly program that draws one
rotating triangle and shows the frame rate) and theorems about it.

* IEEE-754 binary32 and binary64 arithmetic is modelled exactly, on magnitudes
  counted in units of the least subnormal, with round-to-nearest-even.
* The Go library calls the program makes (`time.Duration.Seconds`, `Time.Sub`,
  `fmt.Sprintf` with the verb `%.2f`) and the WebGL entry points it uses are
  modelled after their documented behaviour.
* The GLSL compiler and `math.Cos` / `math.Sin` are parameters (`Host`).
* `setupShaders`, `drawScene`, `addCanvas` and `run` give the WebGL calls of the program;
  `Go.setupShaders`, `Go.drawScene`, `Go.addCanvas` and `Go.run` add the one run-time panic
  on the way, the nil `*UniformLocation` an unlinked program yields. The two agree whenever
  setup goes through.
-/

set_option exponentiation.threshold 5000
set_option maxRecDepth 100000

namespace TriangleDemo

/-! ## IEEE-754 binary floating point -/

/-- A binary floating-point format: `prec` significand bits (the hidden bit
included), least positive value `2 ^ (-scale)`, finite values below `2 ^ emax`. -/
structure FloatFormat where
  prec : Nat
  scale : Nat
  emax : Nat
deriving DecidableEq, Repr

/-- Go's `float32`. -/
def binary32 : FloatFormat := ⟨24, 149, 128⟩

/-- Go's `float64`. -/
def binary64 : FloatFormat := ⟨53, 1074, 1024⟩

/-- A floating-point datum. `finite neg mag` is the number
`(-1) ^ neg * mag * 2 ^ (-fmt.scale)`; signed zeros are `finite _ 0`. -/
inductive FP (fmt : FloatFormat) where
  | finite (neg : Bool) (mag : Nat)
  | inf (neg : Bool)
  | nan
deriving DecidableEq, Repr

abbrev F32 := FP binary32

abbrev F64 := FP binary64

/-- Number of binary digits of `n`, by halving (`fuel` bounds the recursion). -/
def bitLengthAux : Nat → Nat → Nat
  | 0, _ => 0
  | fuel + 1, n => if n = 0 then 0 else bitLengthAux fuel (n / 2) + 1

/-- Number of binary digits of `n`: `0` for `0`, else `⌊log₂ n⌋ + 1`. -/
def bitLength (n : Nat) : Nat := bitLengthAux n n

/-- Round the non-negative rational `num / den` (counted in units of
`2 ^ (-fmt.scale)`) to a multiple of the spacing `q` of the format at that
magnitude, to nearest, ties to the even significand. Below `2 ^ prec` units the
spacing is one unit (subnormals and the first binade). -/
def roundMag (fmt : FloatFormat) (num den : Nat) : Nat :=
  let q := 2 ^ (bitLength (num / den) - fmt.prec)
  let n := num / (den * q)
  let r := num - n * (den * q)
  if den * q < 2 * r ∨ (2 * r = den * q ∧ n % 2 = 1) then (n + 1) * q else n * q

namespace FP

variable {fmt : FloatFormat}

/-- The correctly rounded value of `± num / den` units; overflow gives an infinity. -/
def round (fmt : FloatFormat) (neg : Bool) (num den : Nat) : FP fmt :=
  let m := roundMag fmt num den
  if 2 ^ (fmt.emax + fmt.scale) ≤ m then inf neg else finite neg m

/-- The correctly rounded value of the rational `± num / den`. -/
def ofRatio (fmt : FloatFormat) (neg : Bool) (num den : Nat) : FP fmt :=
  round fmt neg (num * 2 ^ fmt.scale) den

/-- Conversion of an integer, as Go's `float64(i)`. -/
def ofInt (fmt : FloatFormat) (i : Int) : FP fmt :=
  ofRatio fmt (decide (i < 0)) i.natAbs 1

instance : Zero (FP fmt) := ⟨finite false 0⟩

instance : One (FP fmt) := ⟨finite false (2 ^ fmt.scale)⟩

/-- Decimal constants such as `0.01` and `1e9`: the exact decimal value, rounded
once, as Go converts an untyped constant to a floating-point type. -/
instance : OfScientific (FP fmt) :=
  ⟨fun m s e => if s then ofRatio fmt false m (10 ^ e) else ofRatio fmt false (m * 10 ^ e) 1⟩

/-- Negation flips the sign bit. -/
def neg : FP fmt → FP fmt
  | finite s m => finite (!s) m
  | inf s => inf (!s)
  | nan => nan

instance : Neg (FP fmt) := ⟨neg⟩

/-- A signed magnitude as an integer number of units. -/
def signedMag (s : Bool) (m : Nat) : Int := if s then -(m : Int) else (m : Int)

/-- IEEE-754 addition: the exact sum, rounded once. -/
def add : FP fmt → FP fmt → FP fmt
  | nan, _ => nan
  | _, nan => nan
  | inf a, inf b => if a = b then inf a else nan
  | inf a, finite _ _ => inf a
  | finite _ _, inf b => inf b
  | finite sa a, finite sb b =>
    let s : Int := signedMag sa a + signedMag sb b
    if s = 0 then finite (sa && sb) 0 else round fmt (decide (s < 0)) s.natAbs 1

instance : Add (FP fmt) := ⟨add⟩

/-- IEEE-754 division: the exact quotient, rounded once; a non-zero number
divided by zero is an infinity, `0 / 0` and `∞ / ∞` are NaN. Go does not trap a
floating-point division by zero at run time. -/
def div : FP fmt → FP fmt → FP fmt
  | nan, _ => nan
  | _, nan => nan
  | inf _, inf _ => nan
  | inf a, finite sb _ => inf (xor a sb)
  | finite sa _, inf b => finite (xor sa b) 0
  | finite sa a, finite sb b =>
    if b = 0 then (if a = 0 then nan else inf (xor sa sb))
    else round fmt (xor sa sb) (a * 2 ^ fmt.scale) b

instance : Div (FP fmt) := ⟨div⟩

/-- Conversion between formats, as Go's `float64(x)` (exact) and `float32(x)`
(rounded). -/
def convert (dst : FloatFormat) : FP fmt → FP dst
  | nan => nan
  | inf s => inf s
  | finite s m => round dst s (m * 2 ^ dst.scale) (2 ^ fmt.scale)

/-- The exact value of a finite datum as a rational number (`0` otherwise). -/
def toRat : FP fmt → ℚ
  | finite s m => (if s then -1 else 1) * (m : ℚ) / 2 ^ fmt.scale
  | _ => 0

/-- The 32 bits of a `float32`, as an unsigned integer. -/
def bits32 : F32 → Nat
  | nan => 0x7FC00000
  | inf s => (if s then 2 ^ 31 else 0) + 0x7F800000
  | finite s m =>
    (if s then 2 ^ 31 else 0) +
      (if m < 2 ^ 23 then m
       else
        let e := bitLength m - 24
        (e + 1) * 2 ^ 23 + (m / 2 ^ e - 2 ^ 23))

end FP

/-! ## The Go library calls of `drawScene` -/

/-- Go's `time.Second`, in nanoseconds (a `time.Duration` is an `int64` count of
nanoseconds). -/
def Second : Int := 1000000000

def minDuration : Int := -(2 ^ 63)

def maxDuration : Int := 2 ^ 63 - 1

/-- Go's `Time.Sub` on two readings of the monotonic clock (in nanoseconds): the
difference, saturated to the range of `Duration`. -/
def timeSub (t u : Int) : Int :=
  if t - u < minDuration then minDuration
  else if maxDuration < t - u then maxDuration
  else t - u

/-- Go's `Duration.Seconds`:
`sec := d / Second; nsec := d % Second; return float64(sec) + float64(nsec)/1e9`
(Go's integer division truncates toward zero). -/
def Seconds (d : Int) : F64 :=
  let sec := d.tdiv Second
  let nsec := d.tmod Second
  FP.ofInt binary64 sec + FP.ofInt binary64 nsec / (1e9 : F64)

/-- The hundredths shown by `%.2f` for a finite magnitude: the exact binary value
times 100, rounded to the nearest integer, ties to even (the rounding of
`strconv.FormatFloat(x, 'f', 2, 64)`). -/
def hundredths (m : Nat) : Nat :=
  let q := 2 ^ binary64.scale
  let n := m * 100 / q
  let r := m * 100 - n * q
  if q < 2 * r ∨ (2 * r = q ∧ n % 2 = 1) then n + 1 else n

/-- A count of hundredths as decimal text with two digits after the point. -/
def fixed2 (h : Nat) : String :=
  toString (h / 100) ++ "." ++ toString (h % 100 / 10) ++ toString (h % 10)

/-- The text `fmt.Sprintf("%.2f", x)` produces for a `float64`. -/
def formatF2 : F64 → String
  | .nan => "NaN"
  | .inf s => if s then "-Inf" else "+Inf"
  | .finite s m => (if s then "-" else "") ++ fixed2 (hundredths m)

/-! ## Typed arrays (`jsconv`) -/

/-- A JavaScript typed array, as `jsconv.Float32ToJs` and `jsconv.UInt32ToJs`
build them from Go slices. -/
inductive TypedArray where
  | float32 (xs : List F32)
  | uint32 (xs : List Nat)
deriving DecidableEq, Repr

def Float32ToJs (xs : List F32) : TypedArray := .float32 xs

def UInt32ToJs (xs : List Nat) : TypedArray := .uint32 (xs.map (· % 2 ^ 32))

/-- The four bytes of a 32-bit word, least significant first. -/
def le32 (n : Nat) : List Nat :=
  [n % 256, n / 256 % 256, n / 65536 % 256, n / 16777216 % 256]

/-- The bytes of the buffer behind a typed array: packed little-endian elements. -/
def TypedArray.bytes : TypedArray → List Nat
  | .float32 xs => (xs.map fun x => le32 x.bits32).flatten
  | .uint32 xs => (xs.map le32).flatten

/-- The unsigned integer stored in a little-endian run of bytes. -/
def leValue (bs : List Nat) : Nat := bs.foldr (fun b acc => b + 256 * acc) 0

/-! ## The WebGL context -/

abbrev Handle := Nat

def COLOR_BUFFER_BIT : Nat := 0x4000

def DEPTH_TEST : Nat := 0x0B71

def TRIANGLES : Nat := 0x0004

def UNSIGNED_BYTE : Nat := 0x1401

def UNSIGNED_SHORT : Nat := 0x1403

def UNSIGNED_INT : Nat := 0x1405

def FLOAT : Nat := 0x1406

def ARRAY_BUFFER : Nat := 0x8892

def ELEMENT_ARRAY_BUFFER : Nat := 0x8893

def STATIC_DRAW : Nat := 0x88E4

def FRAGMENT_SHADER : Nat := 0x8B30

def VERTEX_SHADER : Nat := 0x8B31

/-- What a successful compilation exposes of a shader: the attributes and
uniforms it declares and uses. -/
structure ShaderInterface where
  attributes : List String
  uniforms : List String
deriving DecidableEq, Repr

/-- The parts of the platform the program's text does not determine: the GLSL
compiler of the WebGL implementation (`none` is a compile error) and Go's
`math.Cos` and `math.Sin` on `float64`. -/
structure Host where
  compile : Nat → String → Option ShaderInterface
  mathCos : F64 → F64
  mathSin : F64 → F64

structure ShaderObject where
  kind : Nat
  source : String
  compiled : Option ShaderInterface
deriving DecidableEq, Repr

structure ProgramObject where
  attached : List Handle
  linked : Option ShaderInterface
deriving DecidableEq, Repr

/-- A uniform location: the program and the name of the uniform. -/
abbrev UniformLocation := Handle × String

/-- The WebGL entry points `main.go` calls, with their arguments. -/
inductive GLCall where
  | clearColor (r g b a : F32)
  | clear (mask : Nat)
  | enable (cap : Nat)
  | viewport (x y width height : Int)
  | createBuffer (result : Handle)
  | bindBuffer (target : Nat) (buffer : Option Handle)
  | bufferData (target : Nat) (data : TypedArray) (usage : Nat)
  | createShader (kind : Nat) (result : Handle)
  | shaderSource (shader : Option Handle) (source : String)
  | compileShader (shader : Option Handle)
  | createProgram (result : Handle)
  | attachShader (program shader : Option Handle)
  | linkProgram (program : Option Handle)
  | useProgram (program : Option Handle)
  | getAttribLocation (program : Option Handle) (name : String) (result : Int)
  | getUniformLocation (program : Option Handle) (name : String)
      (result : Option UniformLocation)
  | vertexAttribPointer (index : Nat) (size : Int) (type : Nat) (normalized : Bool)
      (stride offset : Int)
  | enableVertexAttribArray (index : Nat)
  | uniformMatrix4fv (location : Option UniformLocation) (transpose : Bool)
      (value : TypedArray)
  | drawElements (mode : Nat) (count : Int) (type : Nat) (offset : Int)
deriving DecidableEq, Repr

/-- What an issued `drawElements` call reads from the context at the moment it is
issued: its arguments, the buffer bindings, the program in use, the uniform
values, and the indices it fetches from the bound element array buffer (`none`
when no buffer is bound or the range is outside its store). -/
structure DrawRecord where
  mode : Nat
  count : Int
  type : Nat
  offset : Int
  arrayBuffer : Option Handle
  elementArrayBuffer : Option Handle
  program : Option Handle
  uniforms : List (UniformLocation × List F32)
  indices : Option (List Nat)
deriving DecidableEq, Repr

structure GLContext where
  nextHandle : Handle
  calls : List GLCall
  arrayBuffer : Option Handle
  elementArrayBuffer : Option Handle
  bufferStore : List (Handle × List Nat)
  shaders : List (Handle × ShaderObject)
  programs : List (Handle × ProgramObject)
  currentProgram : Option Handle
  uniforms : List (UniformLocation × List F32)
  draws : List DrawRecord
deriving DecidableEq, Repr

/-- Size in bytes of one index of the given element type. -/
def indexSize (type : Nat) : Option Nat :=
  if type = UNSIGNED_BYTE then some 1
  else if type = UNSIGNED_SHORT then some 2
  else if type = UNSIGNED_INT then some 4
  else none

/-- The `count` indices of type `type` a draw call reads from a buffer store,
starting at byte `offset`. -/
def fetchIndices (store : List Nat) (type : Nat) (count offset : Int) : Option (List Nat) :=
  match indexSize type with
  | none => none
  | some sz =>
    if 0 ≤ count ∧ 0 ≤ offset ∧ offset.toNat + count.toNat * sz ≤ store.length then
      some ((List.range count.toNat).map fun i =>
        leValue ((store.drop (offset.toNat + i * sz)).take sz))
    else none

namespace GLContext

/-- The context `canvas.getContext("webgl")` returns. -/
def fresh : GLContext :=
  ⟨1, [], none, none, [], [], [], none, [], []⟩

def log (gl : GLContext) (c : GLCall) : GLContext :=
  { gl with calls := gl.calls ++ [c] }

def ClearColor (gl : GLContext) (r g b a : F32) : GLContext :=
  gl.log (.clearColor r g b a)

def Clear (gl : GLContext) (mask : Nat) : GLContext :=
  gl.log (.clear mask)

def Enable (gl : GLContext) (cap : Nat) : GLContext :=
  gl.log (.enable cap)

def Viewport (gl : GLContext) (x y width height : Int) : GLContext :=
  gl.log (.viewport x y width height)

def CreateBuffer (gl : GLContext) : Option Handle × GLContext :=
  (some gl.nextHandle,
    { gl.log (.createBuffer gl.nextHandle) with nextHandle := gl.nextHandle + 1 })

/-- Binding `none` (a wrapper around no buffer object) unbinds the target. -/
def BindBuffer (gl : GLContext) (target : Nat) (buffer : Option Handle) : GLContext :=
  { gl.log (.bindBuffer target buffer) with
    arrayBuffer := if target = ARRAY_BUFFER then buffer else gl.arrayBuffer
    elementArrayBuffer :=
      if target = ELEMENT_ARRAY_BUFFER then buffer else gl.elementArrayBuffer }

/-- The buffer bound to a target. -/
def bound (gl : GLContext) (target : Nat) : Option Handle :=
  if target = ARRAY_BUFFER then gl.arrayBuffer
  else if target = ELEMENT_ARRAY_BUFFER then gl.elementArrayBuffer
  else none

/-- The call `bufferData(target, data, usage)`: the bytes of `data` become the store of the
buffer bound to `target`. -/
def BufferData2 (gl : GLContext) (target : Nat) (data : TypedArray) (usage : Nat) :
    GLContext :=
  { gl.log (.bufferData target data usage) with
    bufferStore :=
      match gl.bound target with
      | none => gl.bufferStore
      | some b => (b, data.bytes) :: gl.bufferStore }

def CreateShader (gl : GLContext) (kind : Nat) : Option Handle × GLContext :=
  (some gl.nextHandle,
    { gl.log (.createShader kind gl.nextHandle) with
      nextHandle := gl.nextHandle + 1
      shaders := (gl.nextHandle, ⟨kind, "", none⟩) :: gl.shaders })

def ShaderSource (gl : GLContext) (shader : Option Handle) (source : String) : GLContext :=
  { gl.log (.shaderSource shader source) with
    shaders :=
      match shader with
      | none => gl.shaders
      | some s =>
        match gl.shaders.lookup s with
        | none => gl.shaders
        | some o => (s, { o with source := source }) :: gl.shaders }

/-- Compilation records its outcome in the shader object; a failure raises nothing. -/
def CompileShader (h : Host) (gl : GLContext) (shader : Option Handle) : GLContext :=
  { gl.log (.compileShader shader) with
    shaders :=
      match shader with
      | none => gl.shaders
      | some s =>
        match gl.shaders.lookup s with
        | none => gl.shaders
        | some o => (s, { o with compiled := h.compile o.kind o.source }) :: gl.shaders }

def CreateProgram (gl : GLContext) : Option Handle × GLContext :=
  (some gl.nextHandle,
    { gl.log (.createProgram gl.nextHandle) with
      nextHandle := gl.nextHandle + 1
      programs := (gl.nextHandle, ⟨[], none⟩) :: gl.programs })

def AttachShader (gl : GLContext) (program shader : Option Handle) : GLContext :=
  { gl.log (.attachShader program shader) with
    programs :=
      match program, shader with
      | some p, some s =>
        match gl.programs.lookup p with
        | none => gl.programs
        | some o => (p, { o with attached := o.attached ++ [s] }) :: gl.programs
      | _, _ => gl.programs }

/-- The compiled interface of the first attached shader of a kind. -/
def stage (gl : GLContext) (attached : List Handle) (kind : Nat) : Option ShaderInterface :=
  ((attached.filterMap gl.shaders.lookup).find? fun o => o.kind == kind).bind fun o =>
    o.compiled

/-- The outcome of linking: success when a compiled vertex shader and a compiled fragment
shader are attached. -/
def linkOutcome (gl : GLContext) (attached : List Handle) : Option ShaderInterface :=
  match gl.stage attached VERTEX_SHADER, gl.stage attached FRAGMENT_SHADER with
  | some v, some f => some ⟨v.attributes, v.uniforms ++ f.uniforms⟩
  | _, _ => none

/-- Linking records its outcome in the program object; a failure raises nothing. -/
def LinkProgram (gl : GLContext) (program : Option Handle) : GLContext :=
  { gl.log (.linkProgram program) with
    programs :=
      match program with
      | none => gl.programs
      | some p =>
        match gl.programs.lookup p with
        | none => gl.programs
        | some o => (p, { o with linked := gl.linkOutcome o.attached }) :: gl.programs }

/-- The interface of a successfully linked program. -/
def linked (gl : GLContext) (program : Option Handle) : Option ShaderInterface :=
  (program.bind gl.programs.lookup).bind fun o => o.linked

/-- Only a successfully linked program becomes current. -/
def UseProgram (gl : GLContext) (program : Option Handle) : GLContext :=
  { gl.log (.useProgram program) with
    currentProgram :=
      match program with
      | none => none
      | some p => if (gl.linked (some p)).isSome then some p else gl.currentProgram }

/-- The location of an active uniform of a linked program, else no location. -/
def GetUniformLocation (gl : GLContext) (program : Option Handle) (name : String) :
    Option UniformLocation × GLContext :=
  let r : Option UniformLocation :=
    match program, gl.linked program with
    | some p, some i => if name ∈ i.uniforms then some (p, name) else none
    | _, _ => none
  (r, gl.log (.getUniformLocation program name r))

/-- The index of an active attribute of a linked program, else `-1`. -/
def GetAttribLocation (gl : GLContext) (program : Option Handle) (name : String) :
    Int × GLContext :=
  let r : Int :=
    match gl.linked program with
    | some i => if name ∈ i.attributes then (i.attributes.indexOf name : Int) else -1
    | none => -1
  (r, gl.log (.getAttribLocation program name r))

def VertexAttribPointer (gl : GLContext) (index : Nat) (size : Int) (type : Nat)
    (normalized : Bool) (stride offset : Int) : GLContext :=
  gl.log (.vertexAttribPointer index size type normalized stride offset)

def EnableVertexAttribArray (gl : GLContext) (index : Nat) : GLContext :=
  gl.log (.enableVertexAttribArray index)

/-- The WebGL entry point `uniformMatrix4fv`. The uniform is set when the location belongs
to the program in use, the matrix is not to be transposed, and the value holds the 16 floats
of one matrix; WebGL ignores a null location. The Go wrapper in front of it, which does not
accept a nil location, is `Go.UniformMatrix4fv`. -/
def UniformMatrix4fv (gl : GLContext) (location : Option UniformLocation) (transpose : Bool)
    (value : TypedArray) : GLContext :=
  { gl.log (.uniformMatrix4fv location transpose value) with
    uniforms :=
      match location, value with
      | some loc, .float32 xs =>
        if gl.currentProgram = some loc.1 ∧ transpose = false ∧ xs.length = 16 then
          (loc, xs) :: gl.uniforms
        else gl.uniforms
      | _, _ => gl.uniforms }

/-- Every issued draw call is recorded with what it reads from the context. -/
def DrawElements (gl : GLContext) (mode : Nat) (count : Int) (type : Nat) (offset : Int) :
    GLContext :=
  { gl.log (.drawElements mode count type offset) with
    draws := gl.draws ++
      [⟨mode, count, type, offset, gl.arrayBuffer, gl.elementArrayBuffer, gl.currentProgram,
        gl.uniforms,
        (gl.elementArrayBuffer.bind gl.bufferStore.lookup).bind fun store =>
          fetchIndices store type count offset⟩] }

end GLContext

/-! ## The vertex shader -/

/-- Entry `(row, col)` of the 4×4 matrix WebGL reads from 16 floats passed to
`uniformMatrix4fv` with `transpose = false`: the values are taken in
column-major order. -/
def mat4Entry {R : Type} [Zero R] (m : List R) (row col : Nat) : R :=
  m.getD (4 * col + row) 0

/-- GLSL's `mat4 * vec4`: component `i` of the result is the sum over `j` of
`m[j][i] * v[j]`, where `m[j]` is column `j`. -/
def mulMat4Vec4 {R : Type} [Zero R] [Add R] [Mul R] (m v : List R) : List R :=
  (List.range 4).map fun i =>
    mat4Entry m i 0 * v.getD 0 0 + mat4Entry m i 1 * v.getD 1 0
      + mat4Entry m i 2 * v.getD 2 0 + mat4Entry m i 3 * v.getD 3 0

/-- The vertex shader of `setupShaders`:
`gl_Position = modelview * vec4(coordinates, 1.0)`. -/
def vertexShader {R : Type} [Zero R] [One R] [Add R] [Mul R] (modelview : List R)
    (x y z : R) : List R :=
  mulMat4Vec4 modelview [x, y, z, 1]

/-! ## The program `main.go` -/

/-- Go's conversion `uint(i)` of an `int` (32 bits wide on TinyGo's WebAssembly target). -/
def uint (i : Int) : Nat := (i % 2 ^ 32).toNat

/-- The value `float32(math.Cos(float64(x)))`. -/
def Host.cos32 (h : Host) (x : F32) : F32 :=
  FP.convert binary32 (h.mathCos (FP.convert binary64 x))

/-- The value `float32(math.Sin(float64(x)))`. -/
def Host.sin32 (h : Host) (x : F32) : F32 :=
  FP.convert binary32 (h.mathSin (FP.convert binary64 x))

/-- The function `getRotationMatrix` of `main.go`, over a scalar type `F`: the slice literal
it builds, in order. `cos32 x` and `sin32 x` stand for `float32(math.Cos(float64(x)))` and
`float32(math.Sin(float64(x)))`; the program runs it at `F32` with `Host.cos32` and
`Host.sin32`, and the wrappers `Float32ToJs` and `UnionFromJS` are applied by the caller. -/
def getRotationMatrix {F : Type} [Zero F] [One F] [Neg F] (cos32 sin32 : F → F) (angle : F) :
    List F :=
  let cosA := cos32 angle
  let sinA := sin32 angle
  [cosA, -sinA, 0, 0,
   sinA, cosA, 0, 0,
   0, 0, 1, 0,
   0, 0, 0, 1]

/-- The top-left 2×2 block of a matrix written as 16 values in four rows of four. -/
def topLeftBlock {F : Type} [Zero F] (m : List F) : List (List F) :=
  [[m.getD 0 0, m.getD 1 0], [m.getD 4 0, m.getD 5 0]]

/-- Row `i` of a matrix written as 16 values in four rows of four. -/
def rowOf {F : Type} (m : List F) (i : Nat) : List F := (m.drop (4 * i)).take 4

/-- Column `j` of a matrix written as 16 values in four rows of four. -/
def colOf {F : Type} [Zero F] (m : List F) (j : Nat) : List F :=
  (List.range 4).map fun i => m.getD (4 * i + j) 0

/-- The package-level variables of `main.go` together with the parts of the page
the program acts on. -/
structure World where
  gl : GLContext
  vBuffer : Option Handle
  iBuffer : Option Handle
  icount : Int
  prog : Option Handle
  angle : F32
  /-- Text content of the element with id `fps`. -/
  fpsText : Option String
  /-- Registrations of `drawScene` with `requestAnimationFrame` not yet run. -/
  animationFrames : Nat
deriving DecidableEq, Repr

/-- The state when `main` starts: variables at their zero values, a fresh context. -/
def World.start : World :=
  ⟨GLContext.fresh, none, none, 0, none, 0, none, 0⟩

def verticesNative : List F32 :=
  [-0.5, 0.5, 0,
   -0.5, -0.5, 0,
   0.5, -0.5, 0]

def indicesNative : List Nat :=
  [2, 1, 0]

/-- The function `createBuffers`: the two buffer objects and the index count. -/
def createBuffers (gl : GLContext) : (Option Handle × Option Handle × Int) × GLContext :=
  let vertices := Float32ToJs verticesNative
  let r := gl.CreateBuffer
  let vBuffer := r.1
  let gl := r.2
  let gl := gl.BindBuffer ARRAY_BUFFER vBuffer
  let gl := gl.BufferData2 ARRAY_BUFFER vertices STATIC_DRAW
  let gl := gl.BindBuffer ARRAY_BUFFER none
  let indices := UInt32ToJs indicesNative
  let r := gl.CreateBuffer
  let iBuffer := r.1
  let gl := r.2
  let gl := gl.BindBuffer ELEMENT_ARRAY_BUFFER iBuffer
  let gl := gl.BufferData2 ELEMENT_ARRAY_BUFFER indices STATIC_DRAW
  let gl := gl.BindBuffer ELEMENT_ARRAY_BUFFER none
  ((vBuffer, iBuffer, (indicesNative.length : Int)), gl)

def vertCode : String :=
  "\n  attribute vec3 coordinates;\n  uniform mat4 modelview;\n\n  void main(void) \x7b\n      gl_Position = modelview * vec4(coordinates, 1.0);\n  \x7d\n\t"

def fragCode : String :=
  "\n\tvoid main(void) \x7b\n\t\tgl_FragColor = vec4(0.0, 1.0, 0.0, 0.7);\n\t\x7d"

/-- The function `setupShaders`; `angle` is the package-level variable it reads. These are
the WebGL calls it makes, one after the other; `Go.setupShaders` adds the panic of the Go
wrapper on a nil location, which cuts them short when linking has failed. -/
def setupShaders (h : Host) (angle : F32) (gl : GLContext) : Option Handle × GLContext :=
  let r := gl.CreateShader VERTEX_SHADER
  let vShader := r.1
  let gl := r.2
  let gl := gl.ShaderSource vShader vertCode
  let gl := gl.CompileShader h vShader
  let r := gl.CreateShader FRAGMENT_SHADER
  let fShader := r.1
  let gl := r.2
  let gl := gl.ShaderSource fShader fragCode
  let gl := gl.CompileShader h fShader
  let r := gl.CreateProgram
  let prog := r.1
  let gl := r.2
  let gl := gl.AttachShader prog vShader
  let gl := gl.AttachShader prog fShader
  let gl := gl.LinkProgram prog
  let gl := gl.UseProgram prog
  let r := gl.GetUniformLocation prog "modelview"
  let modelviewLoc := r.1
  let gl := r.2
  let rotationMatrix := Float32ToJs (getRotationMatrix h.cos32 h.sin32 angle)
  let gl := gl.UniformMatrix4fv modelviewLoc false rotationMatrix
  (prog, gl)

/-- The function `drawScene`, the animation-frame callback. `startTime` and `endTime` are the
two readings of `time.Now()`, in nanoseconds of the monotonic clock. These are the calls of
one frame; `Go.drawScene` adds the panic of the Go wrapper on a nil location, which does not
occur after a setup that has gone through (`go_run_ok`). -/
def drawScene (h : Host) (startTime endTime : Int) (w : World) : World :=
  let angle : F32 := w.angle + 0.01
  let gl := w.gl.ClearColor 0.5 0.5 0.5 0.9
  let gl := gl.Clear COLOR_BUFFER_BIT
  let gl := gl.Enable DEPTH_TEST
  let gl := gl.Viewport 0 0 800 800
  let rotationMatrix := Float32ToJs (getRotationMatrix h.cos32 h.sin32 angle)
  let r := gl.GetAttribLocation w.prog "coordinates"
  let coord := r.1
  let gl := r.2
  let gl := gl.BindBuffer ARRAY_BUFFER w.vBuffer
  let gl := gl.BindBuffer ELEMENT_ARRAY_BUFFER w.iBuffer
  let gl := gl.VertexAttribPointer (uint coord) 3 FLOAT false 0 0
  let gl := gl.EnableVertexAttribArray (uint coord)
  let r := gl.GetUniformLocation w.prog "modelview"
  let modelviewLoc := r.1
  let gl := r.2
  let gl := gl.UniformMatrix4fv modelviewLoc false rotationMatrix
  let gl := gl.DrawElements TRIANGLES w.icount UNSIGNED_SHORT 0
  let elapsedTime := timeSub endTime startTime
  let fps : F64 := 1.0 / Seconds elapsedTime
  let fpsDisplay := "FPS: " ++ formatF2 fps
  { w with
    gl := gl
    angle := angle
    fpsText := some fpsDisplay
    animationFrames := w.animationFrames + 1 }

/-- The function `addCanvas`, from the point where the canvas has handed out its WebGL
context: it creates the buffers, sets up the shaders and registers `drawScene` for the next
animation frame. -/
def addCanvas (h : Host) (w : World) : World :=
  let r := createBuffers w.gl
  let gl := r.2
  let s := setupShaders h w.angle gl
  { w with
    gl := s.2
    vBuffer := r.1.1
    iBuffer := r.1.2.1
    icount := r.1.2.2
    prog := s.1
    animationFrames := w.animationFrames + 1 }

/-- One animation frame: the browser runs a registered callback, if there is one. -/
def tick (h : Host) (w : World) (t : Int × Int) : World :=
  if w.animationFrames = 0 then w
  else drawScene h t.1 t.2 { w with animationFrames := w.animationFrames - 1 }

/-- The program run from `main` through the animation frames whose clock readings
(start, end) are listed in `frames`. -/
def run (h : Host) (frames : List (Int × Int)) : World :=
  frames.foldl (tick h) (addCanvas h World.start)

/-! ## The program under Go's run-time checks -/

/-- The method `UniformMatrix4fv` of the `webgl` wrapper package. It reads the JavaScript
value of its `*UniformLocation` argument through the pointer (`location.JSValue()`) before
it calls `uniformMatrix4fv`: a nil location is a nil-pointer dereference, the Go program
panics and nothing reaches the context. `.error` holds the context at the panic. -/
def Go.UniformMatrix4fv (gl : GLContext) (location : Option UniformLocation) (transpose : Bool)
    (value : TypedArray) : Except GLContext GLContext :=
  match location with
  | none => .error gl
  | some l => .ok (gl.UniformMatrix4fv (some l) transpose value)

/-- The function `setupShaders` under Go's run-time checks: `.error` is a panic, with the
context at that point. -/
def Go.setupShaders (h : Host) (angle : F32) (gl : GLContext) :
    Except GLContext (Option Handle × GLContext) :=
  let r := gl.CreateShader VERTEX_SHADER
  let vShader := r.1
  let gl := r.2
  let gl := gl.ShaderSource vShader vertCode
  let gl := gl.CompileShader h vShader
  let r := gl.CreateShader FRAGMENT_SHADER
  let fShader := r.1
  let gl := r.2
  let gl := gl.ShaderSource fShader fragCode
  let gl := gl.CompileShader h fShader
  let r := gl.CreateProgram
  let prog := r.1
  let gl := r.2
  let gl := gl.AttachShader prog vShader
  let gl := gl.AttachShader prog fShader
  let gl := gl.LinkProgram prog
  let gl := gl.UseProgram prog
  let r := gl.GetUniformLocation prog "modelview"
  let modelviewLoc := r.1
  let gl := r.2
  let rotationMatrix := Float32ToJs (getRotationMatrix h.cos32 h.sin32 angle)
  match Go.UniformMatrix4fv gl modelviewLoc false rotationMatrix with
  | .error gl => .error gl
  | .ok gl => .ok (prog, gl)

/-- The function `drawScene` under Go's run-time checks: on a panic the callback stops where
it is, and neither the frame rate is written nor the next frame requested. -/
def Go.drawScene (h : Host) (startTime endTime : Int) (w : World) : Except World World :=
  let angle : F32 := w.angle + 0.01
  let gl := w.gl.ClearColor 0.5 0.5 0.5 0.9
  let gl := gl.Clear COLOR_BUFFER_BIT
  let gl := gl.Enable DEPTH_TEST
  let gl := gl.Viewport 0 0 800 800
  let rotationMatrix := Float32ToJs (getRotationMatrix h.cos32 h.sin32 angle)
  let r := gl.GetAttribLocation w.prog "coordinates"
  let coord := r.1
  let gl := r.2
  let gl := gl.BindBuffer ARRAY_BUFFER w.vBuffer
  let gl := gl.BindBuffer ELEMENT_ARRAY_BUFFER w.iBuffer
  let gl := gl.VertexAttribPointer (uint coord) 3 FLOAT false 0 0
  let gl := gl.EnableVertexAttribArray (uint coord)
  let r := gl.GetUniformLocation w.prog "modelview"
  let modelviewLoc := r.1
  let gl := r.2
  match Go.UniformMatrix4fv gl modelviewLoc false rotationMatrix with
  | .error gl => .error { w with gl := gl, angle := angle }
  | .ok gl =>
    let gl := gl.DrawElements TRIANGLES w.icount UNSIGNED_SHORT 0
    let elapsedTime := timeSub endTime startTime
    let fps : F64 := 1.0 / Seconds elapsedTime
    let fpsDisplay := "FPS: " ++ formatF2 fps
    .ok { w with
          gl := gl
          angle := angle
          fpsText := some fpsDisplay
          animationFrames := w.animationFrames + 1 }

/-- The function `addCanvas` under Go's run-time checks: when `setupShaders` panics, `prog` is
not assigned and `requestAnimationFrame` is not reached. -/
def Go.addCanvas (h : Host) (w : World) : Except World World :=
  let r := createBuffers w.gl
  let gl := r.2
  match Go.setupShaders h w.angle gl with
  | .error gl =>
    .error { w with
             gl := gl
             vBuffer := r.1.1
             iBuffer := r.1.2.1
             icount := r.1.2.2 }
  | .ok s =>
    .ok { w with
          gl := s.2
          vBuffer := r.1.1
          iBuffer := r.1.2.1
          icount := r.1.2.2
          prog := s.1
          animationFrames := w.animationFrames + 1 }

/-- One animation frame under Go's run-time checks: a program that has panicked runs no
callback any more. -/
def Go.tick (h : Host) (w : Except World World) (t : Int × Int) : Except World World :=
  match w with
  | .error w => .error w
  | .ok w =>
    if w.animationFrames = 0 then .ok w
    else Go.drawScene h t.1 t.2 { w with animationFrames := w.animationFrames - 1 }

/-- The program run from `main` through the listed animation frames, under Go's run-time
checks. -/
def Go.run (h : Host) (frames : List (Int × Int)) : Except World World :=
  frames.foldl (Go.tick h) (Go.addCanvas h World.start)

/-- The state a run has reached, whether it ended in a panic or not. -/
def Go.state : Except World World → World
  | .error w => w
  | .ok w => w

/-! ## Hosts and the frame rate text -/

/-- The string `drawScene` writes to the `fps` element for an elapsed time `d`. -/
def fpsDisplay (d : Int) : String :=
  "FPS: " ++ formatF2 ((1.0 : F64) / Seconds d)

/-- A host whose GLSL compiler accepts the two shaders of `setupShaders` and reports their
interface; its `math.Cos` and `math.Sin` are stand-ins exact at `0` only. -/
def goodHost : Host :=
  { compile := fun kind src =>
      if kind = VERTEX_SHADER ∧ src = vertCode then some ⟨["coordinates"], ["modelview"]⟩
      else if kind = FRAGMENT_SHADER ∧ src = fragCode then some ⟨[], []⟩
      else none
    mathCos := fun _ => 1
    mathSin := fun _ => 0 }

/-- A host whose GLSL compiler rejects every shader. -/
def rejectingHost : Host :=
  { compile := fun _ _ => none
    mathCos := fun _ => 1
    mathSin := fun _ => 0 }

/-- A host whose `math.Cos` and `math.Sin` return at the argument 1 the `float64` values
`0x3FE14A280FB5068C` (0.5403023058681398) and `0x3FEAED548F090CEE` (0.8414709848078965) of
Go's library, and stand-ins elsewhere; its GLSL compiler is that of `goodHost`. -/
def referenceHost : Host :=
  { compile := goodHost.compile
    mathCos := fun x => if x = 1 then FP.finite false (4866610526750348 * 2 ^ 1021) else 1
    mathSin := fun x => if x = 1 then FP.finite false (7579296827247854 * 2 ^ 1021) else 0 }

/-! ## Auxiliary definitions for the statements -/

/-- Entry `(i, j)` of a matrix written as 16 values in four rows of four. -/
def entryAt {F : Type} [Zero F] (m : List F) (i j : Nat) : F := m.getD (4 * i + j) 0

/-- The exact values of a list of `float32` data, as rational numbers. -/
def exactValues (m : List F32) : List ℚ := m.map FP.toRat

/-- The update `angle += 0.01` of `drawScene`, in `float32` arithmetic. -/
def stepAngle (a : F32) : F32 := a + 0.01

/-- The rotation angle after `n` updates, starting from the zero value. -/
def angleAfter (n : Nat) : F32 := stepAngle^[n] 0

/-- The resources `addCanvas` set up are in place and one callback is registered. -/
def Ready (h : Host) (w : World) : Prop :=
  w.vBuffer = (addCanvas h World.start).vBuffer
  ∧ w.iBuffer = (addCanvas h World.start).iBuffer
  ∧ w.icount = (addCanvas h World.start).icount
  ∧ w.prog = (addCanvas h World.start).prog
  ∧ w.animationFrames = 1
  ∧ w.gl.bufferStore = (addCanvas h World.start).gl.bufferStore
  ∧ w.gl.programs = (addCanvas h World.start).gl.programs
  ∧ w.gl.currentProgram = (addCanvas h World.start).gl.currentProgram

/-- The WebGL calls one run of `drawScene` issues, in order, given the attribute index and
the uniform location the context hands back. -/
def frameCalls (h : Host) (w : World) (coord : Int) (loc : Option UniformLocation) :
    List GLCall :=
  [.clearColor 0.5 0.5 0.5 0.9,
   .clear COLOR_BUFFER_BIT,
   .enable DEPTH_TEST,
   .viewport 0 0 800 800,
   .getAttribLocation w.prog "coordinates" coord,
   .bindBuffer ARRAY_BUFFER w.vBuffer,
   .bindBuffer ELEMENT_ARRAY_BUFFER w.iBuffer,
   .vertexAttribPointer (uint coord) 3 FLOAT false 0 0,
   .enableVertexAttribArray (uint coord),
   .getUniformLocation w.prog "modelview" loc,
   .uniformMatrix4fv loc false
     (Float32ToJs (getRotationMatrix h.cos32 h.sin32 (stepAngle w.angle))),
   .drawElements TRIANGLES w.icount UNSIGNED_SHORT 0]

/-- Whether a call is a draw call. -/
def GLCall.isDraw : GLCall → Bool
  | .drawElements _ _ _ _ => true
  | _ => false

/-! ## Auxiliary definitions for the frame rate and the angle -/

/-- Magnitude of `Duration.Seconds` for a duration of `D` nanoseconds, in units of
`2 ^ (-1074)`. -/
def secondsMag (D : Nat) : Nat :=
  roundMag binary64
    (roundMag binary64 (D / 10 ^ 9 * 2 ^ 1074) 1
      + roundMag binary64 (roundMag binary64 (D % 10 ^ 9 * 2 ^ 1074) 1 * 2 ^ 1074)
          (10 ^ 9 * 2 ^ 1074)) 1

/-- Magnitude of `1.0 / d.Seconds()` for a duration of `D` nanoseconds. -/
def fpsMag (D : Nat) : Nat := roundMag binary64 (2 ^ 1074 * 2 ^ 1074) (secondsMag D)

/-- The rotation angle after 0, 1, …, 100 updates, in units of `2 ^ (-30)`. -/
def angleTable : List Nat :=
  [0, 10737418, 21474836, 32212254, 42949672, 53687088,
   64424504, 75161920, 85899336, 96636752, 107374168, 118111584,
   128849000, 139586416, 150323840, 161061264, 171798688, 182536112,
   193273536, 204010960, 214748384, 225485808, 236223232, 246960656,
   257698080, 268435488, 279172896, 289910304, 300647712, 311385120,
   322122528, 332859936, 343597344, 354334752, 365072160, 375809568,
   386546976, 397284384, 408021792, 418759200, 429496608, 440234016,
   450971424, 461708832, 472446240, 483183648, 493921056, 504658464,
   515395872, 526133280, 536870688, 547608128, 558345536, 569082944,
   579820352, 590557760, 601295168, 612032576, 622769984, 633507392,
   644244800, 654982208, 665719616, 676457024, 687194432, 697931840,
   708669248, 719406656, 730144064, 740881472, 751618880, 762356288,
   773093696, 783831104, 794568512, 805305920, 816043328, 826780736,
   837518144, 848255552, 858992960, 869730368, 880467776, 891205184,
   901942592, 912680000, 923417408, 934154816, 944892224, 955629632,
   966367040, 977104448, 987841856, 998579264, 1009316672, 1020054080,
   1030791488, 1041528896, 1052266304, 1063003712, 1073741120]

/-- The `float32` with `u` units of `2 ^ (-30)`. -/
def tableAngle (u : Nat) : F32 := FP.finite false (u * 2 ^ 119)

/-- Entry `n` of `angleTable`. -/
def tableEntry (n : Nat) : Nat := angleTable.getD n 0

/-- Whether `u` units of `2 ^ (-30)` are within `10 ^ (-6)` of `n / 100`. -/
def nearHundredth (n u : Nat) : Bool :=
  decide (10 ^ 4 * (100 * u) ≤ 10 ^ 4 * (n * 2 ^ 30) + 2 ^ 30
    ∧ 10 ^ 4 * (n * 2 ^ 30) ≤ 10 ^ 4 * (100 * u) + 2 ^ 30)

/-- The check that `angleTable` lists the successive angles: each entry steps to the next,
which is larger, and entry `n` is within `10 ^ (-6)` of `n / 100`. -/
def angleTableOk : Bool :=
  (List.range 100).all fun n =>
    stepAngle (tableAngle (tableEntry n)) == tableAngle (tableEntry (n + 1))
      && decide (tableEntry n < tableEntry (n + 1))
      && nearHundredth n (tableEntry n) && nearHundredth (n + 1) (tableEntry (n + 1))

/-! ## The state of the program across animation frames -/

theorem drawScene_frame (h : Host) (t0 t1 : Int) (w : World) :
    (drawScene h t0 t1 w).vBuffer = w.vBuffer
    ∧ (drawScene h t0 t1 w).iBuffer = w.iBuffer
    ∧ (drawScene h t0 t1 w).icount = w.icount
    ∧ (drawScene h t0 t1 w).prog = w.prog
    ∧ (drawScene h t0 t1 w).animationFrames = w.animationFrames + 1
    ∧ (drawScene h t0 t1 w).gl.bufferStore = w.gl.bufferStore
    ∧ (drawScene h t0 t1 w).gl.programs = w.gl.programs
    ∧ (drawScene h t0 t1 w).gl.currentProgram = w.gl.currentProgram
    ∧ (drawScene h t0 t1 w).angle = stepAngle w.angle
    ∧ (drawScene h t0 t1 w).fpsText = some (fpsDisplay (timeSub t1 t0)) := by
  simp only [drawScene, GLContext.DrawElements, GLContext.UniformMatrix4fv,
    GLContext.GetUniformLocation, GLContext.EnableVertexAttribArray,
    GLContext.VertexAttribPointer, GLContext.BindBuffer, GLContext.GetAttribLocation,
    GLContext.Viewport, GLContext.Enable, GLContext.Clear, GLContext.ClearColor,
    GLContext.log, stepAngle, fpsDisplay, and_self]

theorem drawScene_draws (h : Host) (t0 t1 : Int) (w : World) :
    (drawScene h t0 t1 w).gl.draws = w.gl.draws ++
      [⟨TRIANGLES, w.icount, UNSIGNED_SHORT, 0, w.vBuffer, w.iBuffer, w.gl.currentProgram,
        (drawScene h t0 t1 w).gl.uniforms,
        (w.iBuffer.bind w.gl.bufferStore.lookup).bind fun store =>
          fetchIndices store UNSIGNED_SHORT w.icount 0⟩] := by
  simp only [drawScene, GLContext.DrawElements, GLContext.UniformMatrix4fv,
    GLContext.GetUniformLocation, GLContext.EnableVertexAttribArray,
    GLContext.VertexAttribPointer, GLContext.BindBuffer, GLContext.GetAttribLocation,
    GLContext.Viewport, GLContext.Enable, GLContext.Clear, GLContext.ClearColor,
    GLContext.log]
  rfl

theorem drawScene_calls (h : Host) (t0 t1 : Int) (w : World) :
    (drawScene h t0 t1 w).gl.calls = w.gl.calls ++
      frameCalls h w (w.gl.GetAttribLocation w.prog "coordinates").1
        (w.gl.GetUniformLocation w.prog "modelview").1 := by
  simp only [drawScene, GLContext.DrawElements, GLContext.UniformMatrix4fv,
    GLContext.GetUniformLocation, GLContext.EnableVertexAttribArray,
    GLContext.VertexAttribPointer, GLContext.BindBuffer, GLContext.GetAttribLocation,
    GLContext.Viewport, GLContext.Enable, GLContext.Clear, GLContext.ClearColor,
    GLContext.log, frameCalls, stepAngle, GLContext.linked, List.append_assoc,
    List.singleton_append, List.cons_append, List.nil_append]

theorem drawScene_uniforms (h : Host) (t0 t1 : Int) (w : World) :
    (drawScene h t0 t1 w).gl.uniforms =
      (w.gl.UniformMatrix4fv (w.gl.GetUniformLocation w.prog "modelview").1 false
        (Float32ToJs (getRotationMatrix h.cos32 h.sin32 (stepAngle w.angle)))).uniforms := by
  simp only [drawScene, GLContext.DrawElements, GLContext.UniformMatrix4fv,
    GLContext.GetUniformLocation, GLContext.EnableVertexAttribArray,
    GLContext.VertexAttribPointer, GLContext.BindBuffer, GLContext.GetAttribLocation,
    GLContext.Viewport, GLContext.Enable, GLContext.Clear, GLContext.ClearColor,
    GLContext.log, stepAngle, GLContext.linked]

theorem ready_addCanvas (h : Host) : Ready h (addCanvas h World.start) :=
  ⟨rfl, rfl, rfl, rfl, rfl, rfl, rfl, rfl⟩

theorem tick_of_ready (h : Host) (w : World) (t : Int × Int) (hw : Ready h w) :
    tick h w t = drawScene h t.1 t.2 { w with animationFrames := 0 } := by
  obtain ⟨-, -, -, -, h5, -⟩ := hw
  simp [tick, h5]

theorem ready_tick (h : Host) (w : World) (t : Int × Int) (hw : Ready h w) :
    Ready h (tick h w t) := by
  rw [tick_of_ready h w t hw]
  obtain ⟨h1, h2, h3, h4, h5, h6, h7, h8⟩ := hw
  obtain ⟨f1, f2, f3, f4, f5, f6, f7, f8, -, -⟩ :=
    drawScene_frame h t.1 t.2 { w with animationFrames := 0 }
  exact ⟨f1.trans h1, f2.trans h2, f3.trans h3, f4.trans h4, f5, f6.trans h6, f7.trans h7,
    f8.trans h8⟩

theorem ready_foldl (h : Host) (frames : List (Int × Int)) :
    ∀ w, Ready h w → Ready h (frames.foldl (tick h) w) := by
  induction frames with
  | nil => intro w hw; exact hw
  | cons t ts ih => intro w hw; exact ih _ (ready_tick h w t hw)

theorem ready_run (h : Host) (frames : List (Int × Int)) : Ready h (run h frames) :=
  ready_foldl h frames _ (ready_addCanvas h)

theorem addCanvas_resources (h : Host) :
    (addCanvas h World.start).vBuffer = some 1
    ∧ (addCanvas h World.start).iBuffer = some 2
    ∧ (addCanvas h World.start).icount = 3
    ∧ (addCanvas h World.start).prog = some 5
    ∧ (addCanvas h World.start).gl.bufferStore.lookup 2 =
        some [2, 0, 0, 0, 1, 0, 0, 0, 0, 0, 0, 0]
    ∧ (addCanvas h World.start).animationFrames = 1
    ∧ (addCanvas h World.start).gl.draws = [] := by
  unfold addCanvas setupShaders createBuffers
  exact ⟨rfl, rfl, rfl, rfl, rfl, rfl, rfl⟩

theorem angle_foldl (h : Host) (frames : List (Int × Int)) :
    ∀ w, Ready h w → (frames.foldl (tick h) w).angle = stepAngle^[frames.length] w.angle := by
  induction frames with
  | nil => intro w _; rfl
  | cons t ts ih =>
    intro w hw
    rw [List.foldl_cons, ih _ (ready_tick h w t hw), tick_of_ready h w t hw,
      (drawScene_frame h t.1 t.2 _).2.2.2.2.2.2.2.2.1]
    rfl

theorem angle_run (h : Host) (frames : List (Int × Int)) :
    (run h frames).angle = angleAfter frames.length :=
  angle_foldl h frames _ (ready_addCanvas h)

theorem draws_foldl (h : Host) (frames : List (Int × Int)) :
    ∀ w, Ready h w →
      (frames.foldl (tick h) w).gl.draws.length = w.gl.draws.length + frames.length := by
  induction frames with
  | nil => intro w _; rfl
  | cons t ts ih =>
    intro w hw
    rw [List.foldl_cons, ih _ (ready_tick h w t hw), tick_of_ready h w t hw, drawScene_draws]
    simp only [List.length_append, List.length_cons, List.length_nil]
    omega

theorem run_snoc (h : Host) (frames : List (Int × Int)) (t : Int × Int) :
    run h (frames ++ [t]) = tick h (run h frames) t := by
  simp [run, List.foldl_append]

theorem addCanvas_linked (h : Host) (vi fi : ShaderInterface)
    (hv : h.compile VERTEX_SHADER vertCode = some vi)
    (hf : h.compile FRAGMENT_SHADER fragCode = some fi) :
    (addCanvas h World.start).gl.linked (some 5) =
        some ⟨vi.attributes, vi.uniforms ++ fi.uniforms⟩
    ∧ (addCanvas h World.start).gl.currentProgram = some 5 := by
  simp only [VERTEX_SHADER, FRAGMENT_SHADER] at hv hf
  simp [addCanvas, setupShaders, createBuffers, World.start, GLContext.fresh,
    GLContext.UniformMatrix4fv, GLContext.GetUniformLocation, GLContext.UseProgram,
    GLContext.LinkProgram, GLContext.AttachShader, GLContext.CreateProgram,
    GLContext.CompileShader, GLContext.ShaderSource, GLContext.CreateShader,
    GLContext.BindBuffer, GLContext.BufferData2, GLContext.CreateBuffer, GLContext.log,
    GLContext.linked, GLContext.linkOutcome, GLContext.stage, List.lookup, hv, hf,
    VERTEX_SHADER, FRAGMENT_SHADER]

theorem tick_draw_record (h : Host) (w : World) (t : Int × Int) (hw : Ready h w) :
    (tick h w t).gl.draws = w.gl.draws ++
      [⟨TRIANGLES, 3, UNSIGNED_SHORT, 0, some 1, some 2, w.gl.currentProgram,
        (tick h w t).gl.uniforms, some [2, 0, 1]⟩] := by
  obtain ⟨r1, r2, r3, r4, -, -, -⟩ := addCanvas_resources h
  have hw2 := hw
  obtain ⟨h1, h2, h3, h4, h5, h6, h7, h8⟩ := hw2
  rw [tick_of_ready h w t hw, drawScene_draws]
  simp only [h1, h2, h3, h6, r1, r2, r3, Option.bind]
  obtain ⟨-, -, -, -, r5, -, -⟩ := addCanvas_resources h
  rw [r5]
  rfl

theorem tick_uniform (h : Host) (w : World) (t : Int × Int) (hw : Ready h w)
    (vi fi : ShaderInterface)
    (hv : h.compile VERTEX_SHADER vertCode = some vi)
    (hf : h.compile FRAGMENT_SHADER fragCode = some fi)
    (hu : "modelview" ∈ vi.uniforms ++ fi.uniforms) :
    (tick h w t).gl.currentProgram = some 5
    ∧ (tick h w t).gl.uniforms.lookup (5, "modelview") =
        some (getRotationMatrix h.cos32 h.sin32 (stepAngle w.angle)) := by
  obtain ⟨l1, l2⟩ := addCanvas_linked h vi fi hv hf
  obtain ⟨-, -, -, r4, -, -, -⟩ := addCanvas_resources h
  have hw2 := hw
  obtain ⟨h1, h2, h3, h4, h5, h6, h7, h8⟩ := hw2
  have hlinked : w.gl.linked (some 5) = some ⟨vi.attributes, vi.uniforms ++ fi.uniforms⟩ := by
    rw [← l1]; simp only [GLContext.linked, h7]
  rw [tick_of_ready h w t hw]
  refine ⟨?_, ?_⟩
  · rw [(drawScene_frame h t.1 t.2 _).2.2.2.2.2.2.2.1]
    exact h8.trans l2
  · rw [drawScene_uniforms]
    have hcur : w.gl.currentProgram = some 5 := h8.trans l2
    simp only [GLContext.UniformMatrix4fv, GLContext.GetUniformLocation, GLContext.log,
      h4, r4, hlinked, hu, hcur, Float32ToJs]
    simp [getRotationMatrix, List.lookup]

/-! ## The rotation matrix -/

/-- C1: for every angle, `getRotationMatrix` yields exactly 16 values, in the order
cos θ, −sin θ, 0, 0, sin θ, cos θ, 0, 0, 0, 0, 1, 0, 0, 0, 0, 1 (four rows of four, top to
bottom); at the angle 1 the top-left block is [[cos 1, −sin 1], [sin 1, cos 1]]. Here cos and
sin are the functions the code applies, `float32(math.Cos(float64(·)))` and
`float32(math.Sin(float64(·)))`, over any scalar type. -/
theorem getRotationMatrix_values {F : Type} [Zero F] [One F] [Neg F] (cos32 sin32 : F → F)
    (θ : F) :
    getRotationMatrix cos32 sin32 θ =
        [cos32 θ, -sin32 θ, 0, 0, sin32 θ, cos32 θ, 0, 0, 0, 0, 1, 0, 0, 0, 0, 1]
      ∧ (getRotationMatrix cos32 sin32 θ).length = 16
      ∧ rowOf (getRotationMatrix cos32 sin32 θ) 0 = [cos32 θ, -sin32 θ, 0, 0]
      ∧ rowOf (getRotationMatrix cos32 sin32 θ) 1 = [sin32 θ, cos32 θ, 0, 0]
      ∧ rowOf (getRotationMatrix cos32 sin32 θ) 2 = [0, 0, 1, 0]
      ∧ rowOf (getRotationMatrix cos32 sin32 θ) 3 = [0, 0, 0, 1]
      ∧ topLeftBlock (getRotationMatrix cos32 sin32 1) =
          [[cos32 1, -sin32 1], [sin32 1, cos32 1]] :=
  ⟨rfl, rfl, rfl, rfl, rfl, rfl, rfl⟩

/-- C2 (what the code does): read in column-major order, as `uniformMatrix4fv` with
`transpose = false` reads them, the 16 values of `getRotationMatrix` are the transpose of the
matrix they spell row by row, so the vertex shader maps (x, y, z) to
(x·cos θ + y·sin θ, −x·sin θ + y·cos θ, z, 1): a rotation by −θ. At θ = π/2 the vertex
(1, 0, 0) is sent to (0, −1, 0, 1), not to (0, 1, 0, 1) = (x·cos θ − y·sin θ,
x·sin θ + y·cos θ, z, 1); the two agree only where x·sin θ = 0 and y·sin θ = 0. In the
program's own `float32` matrix the entry the shader reads at row 0, column 1 is +sin and the
one at row 1, column 0 is −sin. -/
theorem vertexShader_applies_transpose :
    (∀ θ x y z : ℝ,
      vertexShader (getRotationMatrix Real.cos Real.sin θ) x y z =
        [x * Real.cos θ + y * Real.sin θ, -(x * Real.sin θ) + y * Real.cos θ, z, 1])
    ∧ (∀ θ : ℝ, mat4Entry (getRotationMatrix Real.cos Real.sin θ) 0 1 = Real.sin θ
        ∧ mat4Entry (getRotationMatrix Real.cos Real.sin θ) 1 0 = -Real.sin θ)
    ∧ vertexShader (getRotationMatrix Real.cos Real.sin (Real.pi / 2)) 1 0 0 = [0, -1, 0, 1]
    ∧ vertexShader (getRotationMatrix Real.cos Real.sin (Real.pi / 2)) 1 0 0 ≠
        [1 * Real.cos (Real.pi / 2) - 0 * Real.sin (Real.pi / 2),
         1 * Real.sin (Real.pi / 2) + 0 * Real.cos (Real.pi / 2), 0, 1]
    ∧ (∀ θ x y z : ℝ,
        vertexShader (getRotationMatrix Real.cos Real.sin θ) x y z =
            [x * Real.cos θ - y * Real.sin θ, x * Real.sin θ + y * Real.cos θ, z, 1]
          ↔ x * Real.sin θ = 0 ∧ y * Real.sin θ = 0)
    ∧ (∀ (h : Host) (a : F32),
        mat4Entry (getRotationMatrix h.cos32 h.sin32 a) 0 1 = h.sin32 a
        ∧ mat4Entry (getRotationMatrix h.cos32 h.sin32 a) 1 0 = -h.sin32 a) := by
  have key : ∀ θ x y z : ℝ,
      vertexShader (getRotationMatrix Real.cos Real.sin θ) x y z =
        [x * Real.cos θ + y * Real.sin θ, -(x * Real.sin θ) + y * Real.cos θ, z, 1] := by
    intro θ x y z
    simp [vertexShader, mulMat4Vec4, mat4Entry, getRotationMatrix, List.range,
      List.range.loop]
    constructor <;> ring
  refine ⟨key, ?_, ?_, ?_, ?_, ?_⟩
  · intro θ
    simp [mat4Entry, getRotationMatrix]
  · simp [vertexShader, mulMat4Vec4, mat4Entry, getRotationMatrix, List.range,
      List.range.loop]
  · simp [vertexShader, mulMat4Vec4, mat4Entry, getRotationMatrix, List.range,
      List.range.loop]
    norm_num
  · intro θ x y z
    rw [key]
    simp only [List.cons.injEq, and_true]
    constructor
    · rintro ⟨h1, h2⟩
      constructor <;> linarith
    · rintro ⟨h1, h2⟩
      constructor <;> linarith
  · intro h a
    exact ⟨rfl, rfl⟩

theorem sq_add_sq_eq_four_pow (n : Nat) : ∀ a b : Nat, a ^ 2 + b ^ 2 = 4 ^ n → a = 0 ∨ b = 0 := by
  induction n with
  | zero =>
    intro a b h
    rcases Nat.eq_zero_or_pos a with ha | ha
    · exact Or.inl ha
    rcases Nat.eq_zero_or_pos b with hb | hb
    · exact Or.inr hb
    have h1 : 1 ≤ a ^ 2 := Nat.one_le_pow _ _ ha
    have h2 : 1 ≤ b ^ 2 := Nat.one_le_pow _ _ hb
    simp at h
    omega
  | succ n ih =>
    intro a b h
    have h4 : 4 ^ (n + 1) = 4 * 4 ^ n := by ring
    rw [h4] at h
    obtain ⟨k, hk | hk⟩ := Nat.even_or_odd' a <;> obtain ⟨l, hl | hl⟩ := Nat.even_or_odd' b
    · subst hk hl
      have : k ^ 2 + l ^ 2 = 4 ^ n := by
        have e : (2 * k) ^ 2 + (2 * l) ^ 2 = 4 * (k ^ 2 + l ^ 2) := by ring
        omega
      rcases ih k l this with h0 | h0
      · left; omega
      · right; omega
    · subst hk hl
      have e : (2 * k) ^ 2 + (2 * l + 1) ^ 2 = 4 * (k ^ 2 + l ^ 2 + l) + 1 := by ring
      omega
    · subst hk hl
      have e : (2 * k + 1) ^ 2 + (2 * l) ^ 2 = 4 * (k ^ 2 + l ^ 2 + k) + 1 := by ring
      omega
    · subst hk hl
      have e : (2 * k + 1) ^ 2 + (2 * l + 1) ^ 2 = 4 * (k ^ 2 + l ^ 2 + k + l) + 2 := by ring
      omega

theorem toRat_neg (x : F32) : (-x).toRat = -x.toRat := by
  cases x with
  | finite s m =>
    show (FP.neg (FP.finite s m)).toRat = _
    cases s <;> simp [FP.neg, FP.toRat] <;> ring
  | inf s => show (FP.neg (FP.inf s)).toRat = _; simp [FP.neg, FP.toRat]
  | nan => show (FP.neg FP.nan).toRat = _; simp [FP.neg, FP.toRat]

theorem toRat_zero32 : (0 : F32).toRat = 0 := by
  show (FP.finite false 0 : F32).toRat = 0
  simp [FP.toRat]

theorem toRat_one32 : (1 : F32).toRat = 1 := by
  show (FP.finite false (2 ^ binary32.scale) : F32).toRat = 1
  simp [FP.toRat]

/-- The exact values of the matrix are the matrix of the exact values. -/
theorem exactValues_getRotationMatrix (cos32 sin32 : F32 → F32) (a : F32) :
    exactValues (getRotationMatrix cos32 sin32 a) =
      getRotationMatrix (fun _ : ℚ => (cos32 a).toRat) (fun _ : ℚ => (sin32 a).toRat) 0 := by
  simp [exactValues, getRotationMatrix, toRat_neg, toRat_zero32, toRat_one32]

theorem toRat_sq (s : Bool) (m : Nat) :
    (FP.finite s m : F32).toRat ^ 2 = (m : ℚ) ^ 2 / 2 ^ 298 := by
  cases s <;> simp [FP.toRat, binary32] <;> ring

/-- Two finite `float32` values whose squares add up to exactly 1: one of them is zero. -/
theorem float32_sq_add_sq (sc ss : Bool) (mc ms : Nat)
    (h : (FP.finite sc mc : F32).toRat ^ 2 + (FP.finite ss ms : F32).toRat ^ 2 = 1) :
    mc = 0 ∨ ms = 0 := by
  rw [toRat_sq, toRat_sq] at h
  have h2 : ((mc ^ 2 + ms ^ 2 : ℕ) : ℚ) = ((4 ^ 149 : ℕ) : ℚ) := by
    have : (2 : ℚ) ^ 298 = 4 ^ 149 := by norm_num
    push_cast
    field_simp at h
    linarith
  exact sq_add_sq_eq_four_pow 149 mc ms (by exact_mod_cast h2)

theorem reference_cos32 : referenceHost.cos32 1 = FP.finite false (9064768 * 2 ^ 125) := by
  decide

theorem reference_sin32 : referenceHost.sin32 1 = FP.finite false (14117540 * 2 ^ 125) := by
  decide


/-- Values within `δ` of a cosine and a sine: their squares add up to 1 within
`4 δ + 2 δ ^ 2`. -/
theorem sq_add_sq_near_one (c s x δ : ℝ) (hc : |c - Real.cos x| ≤ δ)
    (hs : |s - Real.sin x| ≤ δ) : |c ^ 2 + s ^ 2 - 1| ≤ 4 * δ + 2 * δ ^ 2 := by
  have h1 := Real.cos_sq_add_sin_sq x
  have hδ : 0 ≤ δ := le_trans (abs_nonneg _) hc
  have hx : |Real.cos x| ≤ 1 := Real.abs_cos_le_one x
  have hy : |Real.sin x| ≤ 1 := Real.abs_sin_le_one x
  have e : c ^ 2 + s ^ 2 - 1 =
      (c - Real.cos x) ^ 2 + 2 * ((c - Real.cos x) * Real.cos x)
        + ((s - Real.sin x) ^ 2 + 2 * ((s - Real.sin x) * Real.sin x)) := by
    have h1b : Real.cos x ^ 2 + Real.sin x ^ 2 = 1 := h1
    linear_combination h1b
  have hu2 : (c - Real.cos x) ^ 2 ≤ δ ^ 2 := by
    exact sq_le_sq' (neg_le_of_abs_le hc) (le_of_abs_le hc)
  have hv2 : (s - Real.sin x) ^ 2 ≤ δ ^ 2 := by
    exact sq_le_sq' (neg_le_of_abs_le hs) (le_of_abs_le hs)
  have hux : |(c - Real.cos x) * Real.cos x| ≤ δ := by
    rw [abs_mul]
    calc |c - Real.cos x| * |Real.cos x| ≤ δ * 1 :=
          mul_le_mul hc hx (abs_nonneg _) hδ
      _ = δ := mul_one δ
  have hvy : |(s - Real.sin x) * Real.sin x| ≤ δ := by
    rw [abs_mul]
    calc |s - Real.sin x| * |Real.sin x| ≤ δ * 1 :=
          mul_le_mul hs hy (abs_nonneg _) hδ
      _ = δ := mul_one δ
  have a1 := abs_le.1 hux
  have a2 := abs_le.1 hvy
  have p1 := sq_nonneg (c - Real.cos x)
  have p2 := sq_nonneg (s - Real.sin x)
  rw [e, abs_le]
  constructor <;> nlinarith [sq_nonneg δ]

/-- C9 (counterexample): at the angle 1.0 the code's `float32` cosine and sine are
9064768·2⁻²⁴ and 14117540·2⁻²⁴, and the top-left block built from them has determinant
281474954545424·2⁻⁴⁸ ≈ 0.99999992, not 1; its first row does not have unit length. -/
theorem float32_block_det_ne_one :
    exactValues (getRotationMatrix referenceHost.cos32 referenceHost.sin32 1) =
        [9064768 / 2 ^ 24, -(14117540 / 2 ^ 24), 0, 0,
         14117540 / 2 ^ 24, 9064768 / 2 ^ 24, 0, 0,
         0, 0, 1, 0,
         0, 0, 0, 1]
    ∧ entryAt (exactValues (getRotationMatrix referenceHost.cos32 referenceHost.sin32 1)) 0 0
          * entryAt (exactValues (getRotationMatrix referenceHost.cos32 referenceHost.sin32 1)) 1 1
        - entryAt (exactValues (getRotationMatrix referenceHost.cos32 referenceHost.sin32 1)) 0 1
          * entryAt (exactValues (getRotationMatrix referenceHost.cos32 referenceHost.sin32 1)) 1 0
        = 281474954545424 / 2 ^ 48
    ∧ entryAt (exactValues (getRotationMatrix referenceHost.cos32 referenceHost.sin32 1)) 0 0
          * entryAt (exactValues (getRotationMatrix referenceHost.cos32 referenceHost.sin32 1)) 1 1
        - entryAt (exactValues (getRotationMatrix referenceHost.cos32 referenceHost.sin32 1)) 0 1
          * entryAt (exactValues (getRotationMatrix referenceHost.cos32 referenceHost.sin32 1)) 1 0
        ≠ 1
    ∧ entryAt (exactValues (getRotationMatrix referenceHost.cos32 referenceHost.sin32 1)) 0 0 ^ 2
        + entryAt (exactValues (getRotationMatrix referenceHost.cos32 referenceHost.sin32 1)) 0 1 ^ 2
        ≠ 1 := by
  have e : exactValues (getRotationMatrix referenceHost.cos32 referenceHost.sin32 1) =
      [9064768 / 2 ^ 24, -(14117540 / 2 ^ 24), 0, 0,
       14117540 / 2 ^ 24, 9064768 / 2 ^ 24, 0, 0,
       0, 0, 1, 0,
       0, 0, 0, 1] := by
    rw [exactValues_getRotationMatrix, reference_cos32, reference_sin32]
    simp only [getRotationMatrix, FP.toRat, binary32]
    norm_num
  rw [e]
  refine ⟨rfl, ?_, ?_, ?_⟩ <;> simp only [entryAt, List.getD_cons_zero, List.getD_cons_succ] <;>
    norm_num

/-- C9 (amended): for every angle at which the code's cosine `c` and sine `s` are finite
`float32` values, the top-left 2×2 block of `getRotationMatrix` is [[c, −s], [s, c]]; its
rows, and its columns, are orthogonal to each other and all have squared length `c² + s²`,
which is also its determinant; the third and fourth rows and columns are the unit vectors e3
and e4. The value `c² + s²` is 1 up to rounding only: it is within `4 δ + 2 δ²` of 1 when `c`
and `s` are within `δ` of the cosine and sine of one angle, and it is exactly 1 only if `c`
or `s` is zero. With the exact real cosine and sine the determinant and the lengths are 1. -/
theorem getRotationMatrix_block (h : Host) (a : F32) (sc ss : Bool) (mc ms : Nat)
    (hc : h.cos32 a = FP.finite sc mc) (hs : h.sin32 a = FP.finite ss ms) :
    topLeftBlock (getRotationMatrix h.cos32 h.sin32 a) =
        [[h.cos32 a, -h.sin32 a], [h.sin32 a, h.cos32 a]]
    ∧ rowOf (getRotationMatrix h.cos32 h.sin32 a) 2 = [0, 0, 1, 0]
    ∧ rowOf (getRotationMatrix h.cos32 h.sin32 a) 3 = [0, 0, 0, 1]
    ∧ colOf (getRotationMatrix h.cos32 h.sin32 a) 2 = [0, 0, 1, 0]
    ∧ colOf (getRotationMatrix h.cos32 h.sin32 a) 3 = [0, 0, 0, 1]
    ∧ (let m := exactValues (getRotationMatrix h.cos32 h.sin32 a)
       let c := (h.cos32 a).toRat
       let s := (h.sin32 a).toRat
       entryAt m 0 0 * entryAt m 1 1 - entryAt m 0 1 * entryAt m 1 0 = c ^ 2 + s ^ 2
        ∧ entryAt m 0 0 ^ 2 + entryAt m 0 1 ^ 2 = c ^ 2 + s ^ 2
        ∧ entryAt m 1 0 ^ 2 + entryAt m 1 1 ^ 2 = c ^ 2 + s ^ 2
        ∧ entryAt m 0 0 * entryAt m 1 0 + entryAt m 0 1 * entryAt m 1 1 = 0
        ∧ entryAt m 0 0 ^ 2 + entryAt m 1 0 ^ 2 = c ^ 2 + s ^ 2
        ∧ entryAt m 0 1 ^ 2 + entryAt m 1 1 ^ 2 = c ^ 2 + s ^ 2
        ∧ entryAt m 0 0 * entryAt m 0 1 + entryAt m 1 0 * entryAt m 1 1 = 0
        ∧ (c ^ 2 + s ^ 2 = 1 → mc = 0 ∨ ms = 0)
        ∧ ∀ x δ : ℝ, |(c : ℝ) - Real.cos x| ≤ δ → |(s : ℝ) - Real.sin x| ≤ δ →
            |((c ^ 2 + s ^ 2 : ℚ) : ℝ) - 1| ≤ 4 * δ + 2 * δ ^ 2)
    ∧ ∀ θ : ℝ,
        entryAt (getRotationMatrix Real.cos Real.sin θ) 0 0
              * entryAt (getRotationMatrix Real.cos Real.sin θ) 1 1
            - entryAt (getRotationMatrix Real.cos Real.sin θ) 0 1
              * entryAt (getRotationMatrix Real.cos Real.sin θ) 1 0 = 1
        ∧ entryAt (getRotationMatrix Real.cos Real.sin θ) 0 0 ^ 2
            + entryAt (getRotationMatrix Real.cos Real.sin θ) 0 1 ^ 2 = 1
        ∧ entryAt (getRotationMatrix Real.cos Real.sin θ) 1 0 ^ 2
            + entryAt (getRotationMatrix Real.cos Real.sin θ) 1 1 ^ 2 = 1
        ∧ entryAt (getRotationMatrix Real.cos Real.sin θ) 0 0 ^ 2
            + entryAt (getRotationMatrix Real.cos Real.sin θ) 1 0 ^ 2 = 1
        ∧ entryAt (getRotationMatrix Real.cos Real.sin θ) 0 1 ^ 2
            + entryAt (getRotationMatrix Real.cos Real.sin θ) 1 1 ^ 2 = 1 := by
  refine ⟨rfl, rfl, rfl, rfl, rfl, ?_, ?_⟩
  · intro m c s
    have em : m = [c, -s, 0, 0, s, c, 0, 0, 0, 0, 1, 0, 0, 0, 0, 1] :=
      exactValues_getRotationMatrix h.cos32 h.sin32 a
    have e00 : entryAt m 0 0 = c := by rw [em]; rfl
    have e01 : entryAt m 0 1 = -s := by rw [em]; rfl
    have e10 : entryAt m 1 0 = s := by rw [em]; rfl
    have e11 : entryAt m 1 1 = c := by rw [em]; rfl
    rw [e00, e01, e10, e11]
    refine ⟨by ring, by ring, by ring, by ring, by ring, by ring, by ring, ?_, ?_⟩
    · intro h1
      have hc2 : c = (FP.finite sc mc : F32).toRat := by rw [← hc]
      have hs2 : s = (FP.finite ss ms : F32).toRat := by rw [← hs]
      rw [hc2, hs2] at h1
      exact float32_sq_add_sq sc ss mc ms h1
    · intro x δ h1 h2
      have := sq_add_sq_near_one (c : ℝ) (s : ℝ) x δ h1 h2
      push_cast
      exact this
  · intro θ
    have h := Real.cos_sq_add_sin_sq θ
    have h2 : Real.sin θ ^ 2 + Real.cos θ ^ 2 = 1 := by rw [add_comm]; exact h
    have e00 : entryAt (getRotationMatrix Real.cos Real.sin θ) 0 0 = Real.cos θ := rfl
    have e01 : entryAt (getRotationMatrix Real.cos Real.sin θ) 0 1 = -Real.sin θ := rfl
    have e10 : entryAt (getRotationMatrix Real.cos Real.sin θ) 1 0 = Real.sin θ := rfl
    have e11 : entryAt (getRotationMatrix Real.cos Real.sin θ) 1 1 = Real.cos θ := rfl
    rw [e00, e01, e10, e11]
    refine ⟨?_, ?_, h2, h, ?_⟩
    · linear_combination h
    · linear_combination h
    · linear_combination h

/-- At the angle 1.0 on the reference host the cosine and the sine are finite and non-zero. -/
theorem getRotationMatrix_block_witness :
    referenceHost.cos32 1 = FP.finite false (9064768 * 2 ^ 125)
    ∧ referenceHost.sin32 1 = FP.finite false (14117540 * 2 ^ 125)
    ∧ topLeftBlock (getRotationMatrix referenceHost.cos32 referenceHost.sin32 1) =
        [[referenceHost.cos32 1, -referenceHost.sin32 1],
         [referenceHost.sin32 1, referenceHost.cos32 1]] :=
  ⟨reference_cos32, reference_sin32,
    (getRotationMatrix_block referenceHost 1 false false _ _ reference_cos32 reference_sin32).1⟩

/-! ## Geometry -/

/-- C8: every value of the index list `createBuffers` uploads is below the vertex count,
which is the length of the vertex data divided by 3 components per vertex, namely 3; and
the index count `createBuffers` returns is the length of that index list. -/
theorem createBuffers_indices_valid (gl : GLContext) :
    (∀ i ∈ indicesNative, i < verticesNative.length / 3)
    ∧ verticesNative.length / 3 = 3
    ∧ (createBuffers gl).1.2.2 = indicesNative.length
    ∧ UInt32ToJs indicesNative = TypedArray.uint32 indicesNative
    ∧ GLCall.bufferData ELEMENT_ARRAY_BUFFER (UInt32ToJs indicesNative) STATIC_DRAW
        ∈ (createBuffers gl).2.calls := by
  refine ⟨by decide, by decide, rfl, by decide, ?_⟩
  simp [createBuffers, GLContext.BindBuffer, GLContext.BufferData2, GLContext.CreateBuffer,
    GLContext.log, GLContext.bound, ARRAY_BUFFER, ELEMENT_ARRAY_BUFFER]

/-- C10 (what the code does): the bytes uploaded for the index list [2, 1, 0] are those of
three little-endian 32-bit integers; the draw call of every frame reads three 16-bit
integers from byte offset 0 of that store, which are 2, 0, 1 and not 2, 1, 0. -/
theorem drawElements_reads_2_0_1 (h : Host) (frames : List (Int × Int)) (t : Int × Int) :
    (UInt32ToJs indicesNative).bytes = [2, 0, 0, 0, 1, 0, 0, 0, 0, 0, 0, 0]
    ∧ fetchIndices (UInt32ToJs indicesNative).bytes UNSIGNED_SHORT 3 0 = some [2, 0, 1]
    ∧ ((tick h (run h frames) t).gl.draws.getLast?.map fun d => d.indices) =
        some (some [2, 0, 1])
    ∧ [2, 0, 1] ≠ indicesNative := by
  refine ⟨by decide, by decide, ?_, by decide⟩
  rw [tick_draw_record h _ t (ready_run h frames)]
  simp

/-! ## The draw call of a frame -/

/-- C7: in every frame `drawScene` issues exactly one draw call, the last call of the
frame; when it is issued the vertex buffer returned by `createBuffers` is bound to
ARRAY_BUFFER and the index buffer to ELEMENT_ARRAY_BUFFER, `uniformMatrix4fv` has been called
earlier in the frame for the location of `modelview` with the matrix of the just-incremented
angle (and, the shaders having compiled, the uniform of the program in use holds that
matrix), and the count is the index count returned by `createBuffers`, 3. -/
theorem drawScene_one_draw_call (h : Host) (frames : List (Int × Int)) (t : Int × Int) :
    ∃ (d : DrawRecord) (coord : Int) (loc : Option UniformLocation),
      (tick h (run h frames) t).gl.draws = (run h frames).gl.draws ++ [d]
      ∧ (tick h (run h frames) t).gl.calls =
          (run h frames).gl.calls ++ frameCalls h (run h frames) coord loc
      ∧ ((frameCalls h (run h frames) coord loc).filter GLCall.isDraw).length = 1
      ∧ (tick h (run h frames) t).angle = stepAngle (run h frames).angle
      ∧ d.mode = TRIANGLES ∧ d.type = UNSIGNED_SHORT ∧ d.offset = 0
      ∧ d.count = (createBuffers GLContext.fresh).1.2.2
      ∧ d.count = 3
      ∧ d.count = indicesNative.length
      ∧ d.arrayBuffer = (createBuffers GLContext.fresh).1.1
      ∧ d.elementArrayBuffer = (createBuffers GLContext.fresh).1.2.1
      ∧ d.arrayBuffer = some 1
      ∧ d.elementArrayBuffer = some 2
      ∧ (run h frames).vBuffer = some 1
      ∧ (run h frames).iBuffer = some 2
      ∧ (run h frames).icount = 3
      ∧ (∀ vi fi : ShaderInterface,
          h.compile VERTEX_SHADER vertCode = some vi →
          h.compile FRAGMENT_SHADER fragCode = some fi →
          "modelview" ∈ vi.uniforms ++ fi.uniforms →
            d.program = some 5 ∧ (run h frames).prog = some 5
            ∧ d.uniforms.lookup (5, "modelview") =
                some (getRotationMatrix h.cos32 h.sin32 (stepAngle (run h frames).angle))) := by
  have hr := ready_run h frames
  obtain ⟨r1, r2, r3, r4, -, -, -⟩ := addCanvas_resources h
  have hr2 := hr
  obtain ⟨h1, h2, h3, h4, h5, h6, h7, h8⟩ := hr2
  refine ⟨_, ((run h frames).gl.GetAttribLocation (run h frames).prog "coordinates").1,
    ((run h frames).gl.GetUniformLocation (run h frames).prog "modelview").1,
    tick_draw_record h _ t hr, ?_, ?_, ?_, rfl, rfl, rfl, rfl, rfl, rfl, rfl, rfl,
    rfl, rfl, h1.trans r1, h2.trans r2, h3.trans r3, ?_⟩
  · rw [tick_of_ready h _ t hr, drawScene_calls]
    rfl
  · simp [frameCalls, GLCall.isDraw]
  · rw [tick_of_ready h _ t hr]
    exact (drawScene_frame h t.1 t.2 _).2.2.2.2.2.2.2.2.1
  · intro vi fi hv hf hu
    obtain ⟨u1, u2⟩ := tick_uniform h _ t hr vi fi hv hf hu
    obtain ⟨l1, l2⟩ := addCanvas_linked h vi fi hv hf
    exact ⟨h8.trans l2, h4.trans r4, u2⟩

/-! ## Shader failures -/

theorem go_foldl_error (h : Host) (frames : List (Int × Int)) (w : World) :
    frames.foldl (Go.tick h) (.error w) = .error w := by
  induction frames with
  | nil => rfl
  | cons t ts ih => exact ih

theorem go_run_error (h : Host) (frames : List (Int × Int)) (w : World)
    (e : Go.addCanvas h World.start = .error w) : Go.run h frames = .error w := by
  unfold Go.run
  rw [e]
  exact go_foldl_error h frames w

/-- Both versions of `setupShaders` run the same calls up to the location of `modelview`. -/
theorem setupShaders_split (h : Host) (a : F32) (gl : GLContext) :
    ∃ (p : Option Handle) (g : GLContext),
      setupShaders h a gl =
        (p, (g.GetUniformLocation p "modelview").2.UniformMatrix4fv
              (g.GetUniformLocation p "modelview").1 false
              (Float32ToJs (getRotationMatrix h.cos32 h.sin32 a)))
      ∧ Go.setupShaders h a gl =
        (match Go.UniformMatrix4fv (g.GetUniformLocation p "modelview").2
              (g.GetUniformLocation p "modelview").1 false
              (Float32ToJs (getRotationMatrix h.cos32 h.sin32 a)) with
         | .error gl => .error gl
         | .ok gl => .ok (p, gl)) :=
  ⟨_, _, rfl, rfl⟩

/-- The location depends on the program objects only. -/
theorem location_congr (g g2 : GLContext) (p : Option Handle) (n : String)
    (hp : g.programs = g2.programs) :
    (g.GetUniformLocation p n).1 = (g2.GetUniformLocation p n).1 := by
  simp only [GLContext.GetUniformLocation, GLContext.linked, hp]

theorem uniformMatrix4fv_keeps (g : GLContext) (l : Option UniformLocation) (t : Bool)
    (v : TypedArray) :
    (g.UniformMatrix4fv l t v).programs = g.programs
    ∧ (g.UniformMatrix4fv l t v).draws = g.draws
    ∧ (g.UniformMatrix4fv l t v).calls = g.calls ++ [.uniformMatrix4fv l t v] :=
  ⟨rfl, rfl, rfl⟩

theorem getUniformLocation_keeps (g : GLContext) (p : Option Handle) (n : String) :
    (g.GetUniformLocation p n).2.programs = g.programs
    ∧ (g.GetUniformLocation p n).2.draws = g.draws
    ∧ (g.GetUniformLocation p n).2.calls =
        g.calls ++ [.getUniformLocation p n (g.GetUniformLocation p n).1] :=
  ⟨rfl, rfl, rfl⟩

/-- The outcome of `setupShaders` under Go's run-time checks, from the location the finished
context hands back for `modelview`. -/
theorem go_setupShaders_cases (h : Host) (a : F32) (gl : GLContext) :
    (((setupShaders h a gl).2.GetUniformLocation (setupShaders h a gl).1 "modelview").1 ≠ none
        ∧ Go.setupShaders h a gl = .ok (setupShaders h a gl))
    ∨ (((setupShaders h a gl).2.GetUniformLocation (setupShaders h a gl).1 "modelview").1 = none
        ∧ ∃ g : GLContext, Go.setupShaders h a gl = .error g
          ∧ g.programs = (setupShaders h a gl).2.programs
          ∧ g.draws = (setupShaders h a gl).2.draws
          ∧ (setupShaders h a gl).2.calls = g.calls ++
              [.uniformMatrix4fv none false
                (Float32ToJs (getRotationMatrix h.cos32 h.sin32 a))]) := by
  obtain ⟨p, g, e1, e2⟩ := setupShaders_split h a gl
  have hloc : ((setupShaders h a gl).2.GetUniformLocation (setupShaders h a gl).1
      "modelview").1 = (g.GetUniformLocation p "modelview").1 := by
    rw [e1]
    exact location_congr _ _ _ _ rfl
  rw [hloc, e2, e1]
  cases hl : (g.GetUniformLocation p "modelview").1 with
  | none =>
    right
    exact ⟨rfl, _, rfl, rfl, rfl, rfl⟩
  | some l =>
    left
    exact ⟨by simp, rfl⟩

theorem addCanvas_unlinked (h : Host)
    (hfail : h.compile VERTEX_SHADER vertCode = none
      ∨ h.compile FRAGMENT_SHADER fragCode = none) :
    (addCanvas h World.start).gl.linked (some 5) = none := by
  simp only [VERTEX_SHADER, FRAGMENT_SHADER] at hfail
  cases hv : h.compile 35633 vertCode <;> cases hf : h.compile 35632 fragCode
  · simp [addCanvas, setupShaders, createBuffers, World.start, GLContext.fresh,
      GLContext.UniformMatrix4fv, GLContext.GetUniformLocation, GLContext.UseProgram,
      GLContext.LinkProgram, GLContext.AttachShader, GLContext.CreateProgram,
      GLContext.CompileShader, GLContext.ShaderSource, GLContext.CreateShader,
      GLContext.BindBuffer, GLContext.BufferData2, GLContext.CreateBuffer, GLContext.log,
      GLContext.linked, GLContext.linkOutcome, GLContext.stage, List.lookup, hv, hf,
      VERTEX_SHADER, FRAGMENT_SHADER]
  · simp [addCanvas, setupShaders, createBuffers, World.start, GLContext.fresh,
      GLContext.UniformMatrix4fv, GLContext.GetUniformLocation, GLContext.UseProgram,
      GLContext.LinkProgram, GLContext.AttachShader, GLContext.CreateProgram,
      GLContext.CompileShader, GLContext.ShaderSource, GLContext.CreateShader,
      GLContext.BindBuffer, GLContext.BufferData2, GLContext.CreateBuffer, GLContext.log,
      GLContext.linked, GLContext.linkOutcome, GLContext.stage, List.lookup, hv, hf,
      VERTEX_SHADER, FRAGMENT_SHADER]
  · simp [addCanvas, setupShaders, createBuffers, World.start, GLContext.fresh,
      GLContext.UniformMatrix4fv, GLContext.GetUniformLocation, GLContext.UseProgram,
      GLContext.LinkProgram, GLContext.AttachShader, GLContext.CreateProgram,
      GLContext.CompileShader, GLContext.ShaderSource, GLContext.CreateShader,
      GLContext.BindBuffer, GLContext.BufferData2, GLContext.CreateBuffer, GLContext.log,
      GLContext.linked, GLContext.linkOutcome, GLContext.stage, List.lookup, hv, hf,
      VERTEX_SHADER, FRAGMENT_SHADER]
  · rw [hv, hf] at hfail
    simp at hfail

theorem addCanvas_no_draw_call (h : Host) :
    (addCanvas h World.start).gl.calls.filter GLCall.isDraw = [] := by
  unfold addCanvas setupShaders createBuffers
  rfl

/-- The outcome of `addCanvas` under Go's run-time checks, from the location the finished
context hands back for `modelview`: either no call panics and the state is that of
`addCanvas`, or `setupShaders` panics with the context it has reached. -/
theorem go_addCanvas_cases (h : Host) :
    (((addCanvas h World.start).gl.GetUniformLocation (addCanvas h World.start).prog
          "modelview").1 ≠ none
        ∧ Go.addCanvas h World.start = .ok (addCanvas h World.start))
    ∨ (((addCanvas h World.start).gl.GetUniformLocation (addCanvas h World.start).prog
          "modelview").1 = none
        ∧ ∃ g : GLContext,
          Go.setupShaders h World.start.angle (createBuffers World.start.gl).2 = .error g
          ∧ Go.addCanvas h World.start =
              .error { World.start with
                       gl := g
                       vBuffer := (createBuffers World.start.gl).1.1
                       iBuffer := (createBuffers World.start.gl).1.2.1
                       icount := (createBuffers World.start.gl).1.2.2 }
          ∧ g.programs = (addCanvas h World.start).gl.programs
          ∧ g.draws = (addCanvas h World.start).gl.draws
          ∧ (addCanvas h World.start).gl.calls = g.calls ++
              [.uniformMatrix4fv none false
                (Float32ToJs (getRotationMatrix h.cos32 h.sin32 World.start.angle))]) := by
  rcases go_setupShaders_cases h World.start.angle (createBuffers World.start.gl).2 with
    ⟨h1, e⟩ | ⟨h1, g, e, hp, hd, hc⟩
  · left
    refine ⟨h1, ?_⟩
    show (match Go.setupShaders h World.start.angle (createBuffers World.start.gl).2 with
      | .error gl => _
      | .ok s => _) = _
    rw [e]
    rfl
  · right
    refine ⟨h1, g, e, ?_, hp, hd, hc⟩
    show (match Go.setupShaders h World.start.angle (createBuffers World.start.gl).2 with
      | .error gl => _
      | .ok s => _) = _
    rw [e]

/-- Setup reaches the same program objects whether it ends in a panic or not. -/
theorem go_addCanvas_programs (h : Host) :
    (Go.state (Go.addCanvas h World.start)).gl.programs =
      (addCanvas h World.start).gl.programs := by
  rcases go_addCanvas_cases h with ⟨-, e⟩ | ⟨-, g, -, e, hp, -, -⟩
  · rw [e]
    rfl
  · rw [e]
    exact hp

/-- When linking has failed, `addCanvas` panics in `setupShaders`. -/
theorem go_addCanvas_panic (h : Host)
    (hun : (addCanvas h World.start).gl.linked (some 5) = none) :
    ∃ g : GLContext,
      Go.setupShaders h World.start.angle (createBuffers World.start.gl).2 = .error g
      ∧ Go.addCanvas h World.start =
          .error { World.start with
                   gl := g
                   vBuffer := (createBuffers World.start.gl).1.1
                   iBuffer := (createBuffers World.start.gl).1.2.1
                   icount := (createBuffers World.start.gl).1.2.2 }
      ∧ g.linked (some 5) = none
      ∧ g.draws = []
      ∧ g.calls.filter GLCall.isDraw = [] := by
  obtain ⟨-, -, -, r4, -, -, r7⟩ := addCanvas_resources h
  have hnd := addCanvas_no_draw_call h
  have hloc : ((addCanvas h World.start).gl.GetUniformLocation (addCanvas h World.start).prog
      "modelview").1 = none := by
    simp only [GLContext.GetUniformLocation, r4, hun]
  rcases go_addCanvas_cases h with ⟨h1, -⟩ | ⟨-, g, e, e2, hp, hd, hc⟩
  · exact absurd hloc h1
  · refine ⟨g, e, e2, ?_, ?_, ?_⟩
    · have : g.linked (some 5) = (addCanvas h World.start).gl.linked (some 5) := by
        simp only [GLContext.linked]
        rw [hp]
      rw [this, hun]
    · rw [hd]
      exact r7
    · rw [hc, List.filter_append] at hnd
      exact (List.append_eq_nil.1 hnd).1

/-- Both versions of `drawScene` run the same calls up to the location of `modelview`, on
the program objects the frame started with. -/
theorem drawScene_split (h : Host) (t0 t1 : Int) (w : World) :
    ∃ g : GLContext, g.programs = w.gl.programs
      ∧ drawScene h t0 t1 w =
        { w with
          gl := ((g.GetUniformLocation w.prog "modelview").2.UniformMatrix4fv
                  (g.GetUniformLocation w.prog "modelview").1 false
                  (Float32ToJs (getRotationMatrix h.cos32 h.sin32 (w.angle + 0.01)))).DrawElements
                  TRIANGLES w.icount UNSIGNED_SHORT 0
          angle := w.angle + 0.01
          fpsText := some ("FPS: " ++ formatF2 ((1.0 : F64) / Seconds (timeSub t1 t0)))
          animationFrames := w.animationFrames + 1 }
      ∧ Go.drawScene h t0 t1 w =
        (match Go.UniformMatrix4fv (g.GetUniformLocation w.prog "modelview").2
              (g.GetUniformLocation w.prog "modelview").1 false
              (Float32ToJs (getRotationMatrix h.cos32 h.sin32 (w.angle + 0.01))) with
         | .error gl => .error { w with gl := gl, angle := w.angle + 0.01 }
         | .ok gl =>
           .ok { w with
                 gl := gl.DrawElements TRIANGLES w.icount UNSIGNED_SHORT 0
                 angle := w.angle + 0.01
                 fpsText := some ("FPS: " ++ formatF2 ((1.0 : F64) / Seconds (timeSub t1 t0)))
                 animationFrames := w.animationFrames + 1 }) := by
  refine ⟨_, ?_, rfl, rfl⟩
  simp only [GLContext.EnableVertexAttribArray, GLContext.VertexAttribPointer,
    GLContext.BindBuffer, GLContext.GetAttribLocation, GLContext.Viewport, GLContext.Enable,
    GLContext.Clear, GLContext.ClearColor, GLContext.log]

/-- With a location for `modelview`, `drawScene` meets no nil pointer. -/
theorem go_drawScene_ok (h : Host) (t0 t1 : Int) (w : World) (l : UniformLocation)
    (hl : (w.gl.GetUniformLocation w.prog "modelview").1 = some l) :
    Go.drawScene h t0 t1 w = .ok (drawScene h t0 t1 w) := by
  obtain ⟨g, hp, e1, e2⟩ := drawScene_split h t0 t1 w
  have hloc : (g.GetUniformLocation w.prog "modelview").1 = some l := by
    rw [location_congr g w.gl w.prog "modelview" hp, hl]
  rw [e2, e1, hloc]
  rfl

/-- The location of `modelview` once both shaders have compiled and the vertex shader's
uniform is active. -/
theorem addCanvas_location (h : Host) (vi fi : ShaderInterface)
    (hv : h.compile VERTEX_SHADER vertCode = some vi)
    (hf : h.compile FRAGMENT_SHADER fragCode = some fi)
    (hu : "modelview" ∈ vi.uniforms ++ fi.uniforms) :
    ((addCanvas h World.start).gl.GetUniformLocation (addCanvas h World.start).prog
      "modelview").1 = some (5, "modelview") := by
  obtain ⟨l1, -⟩ := addCanvas_linked h vi fi hv hf
  obtain ⟨-, -, -, r4, -, -, -⟩ := addCanvas_resources h
  simp only [GLContext.GetUniformLocation, r4, l1, hu, if_true]

theorem ready_location (h : Host) (w : World) (hw : Ready h w) :
    (w.gl.GetUniformLocation w.prog "modelview").1 =
      ((addCanvas h World.start).gl.GetUniformLocation (addCanvas h World.start).prog
        "modelview").1 := by
  obtain ⟨-, -, -, h4, -, -, h7, -⟩ := hw
  rw [h4]
  exact location_congr _ _ _ _ h7

theorem go_addCanvas_ok (h : Host) (l : UniformLocation)
    (hl : ((addCanvas h World.start).gl.GetUniformLocation (addCanvas h World.start).prog
      "modelview").1 = some l) :
    Go.addCanvas h World.start = .ok (addCanvas h World.start) := by
  rcases go_addCanvas_cases h with ⟨-, e⟩ | ⟨h1, -⟩
  · exact e
  · rw [hl] at h1
    exact absurd h1 (by simp)

theorem go_foldl_ok (h : Host) (l : UniformLocation)
    (hl : ((addCanvas h World.start).gl.GetUniformLocation (addCanvas h World.start).prog
      "modelview").1 = some l) (frames : List (Int × Int)) :
    ∀ w, Ready h w → frames.foldl (Go.tick h) (.ok w) = .ok (frames.foldl (tick h) w) := by
  induction frames with
  | nil => intro w _; rfl
  | cons t ts ih =>
    intro w hw
    have hstep : Go.tick h (.ok w) t = .ok (tick h w t) := by
      have h5 : w.animationFrames = 1 := hw.2.2.2.2.1
      have hloc := (ready_location h w hw).trans hl
      rw [tick_of_ready h w t hw]
      show (if w.animationFrames = 0 then Except.ok w
        else Go.drawScene h t.1 t.2 { w with animationFrames := w.animationFrames - 1 }) = _
      rw [if_neg (by omega), h5]
      exact go_drawScene_ok h t.1 t.2 _ l hloc
    rw [List.foldl_cons, List.foldl_cons, hstep]
    exact ih _ (ready_tick h w t hw)

/-- When both shaders compile and `modelview` is an active uniform, the program never
panics: under Go's run-time checks it goes through the states of `run`. -/
theorem go_run_ok (h : Host) (vi fi : ShaderInterface)
    (hv : h.compile VERTEX_SHADER vertCode = some vi)
    (hf : h.compile FRAGMENT_SHADER fragCode = some fi)
    (hu : "modelview" ∈ vi.uniforms ++ fi.uniforms) (frames : List (Int × Int)) :
    Go.run h frames = .ok (run h frames) := by
  have hl := addCanvas_location h vi fi hv hf hu
  unfold Go.run run
  rw [go_addCanvas_ok h _ hl]
  exact go_foldl_ok h _ hl frames _ (ready_addCanvas h)

/-- C6: when either shader stage fails to compile or linking fails, `setupShaders` fails:
the program is not linked, the location of `modelview` is nil and the Go program panics on
it. `addCanvas` is aborted before it reaches `requestAnimationFrame`: no callback is
registered, the animation loop is not started, and whatever animation frames follow, no draw
call is ever issued. -/
theorem setup_failure_aborts (h : Host)
    (hfail : h.compile VERTEX_SHADER vertCode = none
      ∨ h.compile FRAGMENT_SHADER fragCode = none
      ∨ (Go.state (Go.addCanvas h World.start)).gl.linked (some 5) = none) :
    ∃ (g : GLContext) (w : World),
      Go.setupShaders h World.start.angle (createBuffers World.start.gl).2 = .error g
      ∧ g.linked (some 5) = none
      ∧ Go.addCanvas h World.start = .error w
      ∧ w.gl = g
      ∧ w.prog = none
      ∧ w.animationFrames = 0
      ∧ w.gl.draws = []
      ∧ w.gl.calls.filter GLCall.isDraw = []
      ∧ ∀ frames : List (Int × Int),
          Go.run h frames = .error w
          ∧ (Go.state (Go.run h frames)).animationFrames = 0
          ∧ (Go.state (Go.run h frames)).gl.draws = []
          ∧ (Go.state (Go.run h frames)).gl.calls.filter GLCall.isDraw = [] := by
  have hun : (addCanvas h World.start).gl.linked (some 5) = none := by
    rcases hfail with hv | hf | hl
    · exact addCanvas_unlinked h (Or.inl hv)
    · exact addCanvas_unlinked h (Or.inr hf)
    · simp only [GLContext.linked] at hl ⊢
      rw [← go_addCanvas_programs h]
      exact hl
  obtain ⟨g, e1, e2, h3, h4, h5⟩ := go_addCanvas_panic h hun
  refine ⟨g, _, e1, h3, e2, rfl, rfl, rfl, h4, h5, ?_⟩
  intro frames
  have hr := go_run_error h frames _ e2
  rw [hr]
  exact ⟨rfl, rfl, h4, h5⟩

/-- A host whose GLSL compiler rejects every shader: setup ends in a panic. -/
theorem setup_failure_aborts_witness :
    (rejectingHost.compile VERTEX_SHADER vertCode = none
      ∨ rejectingHost.compile FRAGMENT_SHADER fragCode = none
      ∨ (Go.state (Go.addCanvas rejectingHost World.start)).gl.linked (some 5) = none)
    ∧ ∃ (g : GLContext) (w : World),
      Go.setupShaders rejectingHost World.start.angle (createBuffers World.start.gl).2 = .error g
      ∧ g.linked (some 5) = none
      ∧ Go.addCanvas rejectingHost World.start = .error w
      ∧ w.gl = g
      ∧ w.prog = none
      ∧ w.animationFrames = 0
      ∧ w.gl.draws = []
      ∧ w.gl.calls.filter GLCall.isDraw = []
      ∧ ∀ frames : List (Int × Int),
          Go.run rejectingHost frames = .error w
          ∧ (Go.state (Go.run rejectingHost frames)).animationFrames = 0
          ∧ (Go.state (Go.run rejectingHost frames)).gl.draws = []
          ∧ (Go.state (Go.run rejectingHost frames)).gl.calls.filter GLCall.isDraw = [] :=
  ⟨Or.inl rfl, setup_failure_aborts rejectingHost (Or.inl rfl)⟩

/-! ## Rounding: how far a rounded magnitude is from the exact quotient -/

theorem bitLengthAux_zero (fuel : Nat) : bitLengthAux fuel 0 = 0 := by
  cases fuel <;> simp [bitLengthAux]

theorem bitLengthAux_spec (fuel : Nat) :
    ∀ n, n ≤ fuel → n ≠ 0 →
      2 ^ (bitLengthAux fuel n - 1) ≤ n ∧ n < 2 ^ bitLengthAux fuel n := by
  induction fuel with
  | zero => intro n hn h0; omega
  | succ fuel ih =>
    intro n hn h0
    simp only [bitLengthAux, h0, if_false, Nat.add_sub_cancel]
    by_cases h2 : n / 2 = 0
    · rw [h2, bitLengthAux_zero]
      have : n = 1 := by omega
      subst this
      simp
    · obtain ⟨l, u⟩ := ih (n / 2) (by omega) h2
      have hpos : 0 < bitLengthAux fuel (n / 2) := by
        by_contra hc
        have : bitLengthAux fuel (n / 2) = 0 := by omega
        rw [this] at u
        simp at u
        omega
      have e : bitLengthAux fuel (n / 2) = (bitLengthAux fuel (n / 2) - 1) + 1 := by omega
      constructor
      · rw [e, pow_succ]
        omega
      · rw [pow_succ]
        omega

theorem bitLength_spec (n : Nat) (h0 : n ≠ 0) :
    2 ^ (bitLength n - 1) ≤ n ∧ n < 2 ^ bitLength n :=
  bitLengthAux_spec n n le_rfl h0

theorem bitLength_zero : bitLength 0 = 0 := rfl

/-- The rounded magnitude is within half a spacing of the exact quotient. -/
theorem roundMag_near (fmt : FloatFormat) (num den : Nat) (hden : 0 < den) :
    2 * (roundMag fmt num den * den) ≤ 2 * num + den * 2 ^ (bitLength (num / den) - fmt.prec)
    ∧ 2 * num ≤ 2 * (roundMag fmt num den * den)
        + den * 2 ^ (bitLength (num / den) - fmt.prec) := by
  unfold roundMag
  have hq : 0 < 2 ^ (bitLength (num / den) - fmt.prec) := by positivity
  generalize 2 ^ (bitLength (num / den) - fmt.prec) = q at hq
  have hD : 0 < den * q := Nat.mul_pos hden hq
  have e1 : ∀ n : Nat, n * q * den = n * (den * q) := by intro n; ring
  simp only [apply_ite (· * den), e1]
  generalize den * q = D at hD
  have h1 := Nat.div_add_mod num D
  have h2 := Nat.mod_lt num hD
  have h3 : num / D * D = D * (num / D) := Nat.mul_comm _ _
  have h4 : (num / D + 1) * D = D * (num / D) + D := by ring
  rw [h3, h4]
  generalize D * (num / D) = N at h1
  split_ifs with hc
  · rcases hc with hc | ⟨hc, -⟩ <;> omega
  · have : ¬ D < 2 * (num - N) := fun h => hc (Or.inl h)
    omega

/-- In the normal range the spacing is at most `2 ^ (1 - prec)` times the quotient. -/
theorem spacing_le (fmt : FloatFormat) (num den : Nat) (hden : 0 < den)
    (hn : 2 ^ (fmt.prec - 1) * den ≤ num) (hp : 0 < fmt.prec) :
    den * 2 ^ (bitLength (num / den) - fmt.prec) * 2 ^ (fmt.prec - 1) ≤ num := by
  have hf : 2 ^ (fmt.prec - 1) ≤ num / den := (Nat.le_div_iff_mul_le hden).2 hn
  have hf0 : num / den ≠ 0 := by
    have : 0 < 2 ^ (fmt.prec - 1) := by positivity
    omega
  obtain ⟨l, u⟩ := bitLength_spec (num / den) hf0
  have hL : fmt.prec - 1 < bitLength (num / den) :=
    (Nat.pow_lt_pow_iff_right (by norm_num)).1 (lt_of_le_of_lt hf u)
  have e : bitLength (num / den) - fmt.prec + (fmt.prec - 1) = bitLength (num / den) - 1 := by
    omega
  calc den * 2 ^ (bitLength (num / den) - fmt.prec) * 2 ^ (fmt.prec - 1)
      = den * 2 ^ (bitLength (num / den) - 1) := by rw [Nat.mul_assoc, ← pow_add, e]
    _ ≤ den * (num / den) := Nat.mul_le_mul_left _ l
    _ ≤ num := Nat.mul_div_le num den

/-- Relative error of rounding in the normal range: at most `2 ^ (-prec)`. -/
theorem roundMag_rel (fmt : FloatFormat) (num den : Nat) (hden : 0 < den)
    (hn : 2 ^ (fmt.prec - 1) * den ≤ num) (hp : 0 < fmt.prec) :
    2 ^ fmt.prec * (roundMag fmt num den * den) ≤ (2 ^ fmt.prec + 1) * num
    ∧ 2 ^ fmt.prec * num ≤ 2 ^ fmt.prec * (roundMag fmt num den * den) + num := by
  obtain ⟨a, b⟩ := roundMag_near fmt num den hden
  have c := spacing_le fmt num den hden hn hp
  have e : 2 ^ fmt.prec = 2 * 2 ^ (fmt.prec - 1) := by
    rw [← pow_succ']; congr 1; omega
  generalize roundMag fmt num den * den = M at a b
  generalize den * 2 ^ (bitLength (num / den) - fmt.prec) = Q at a b c
  rw [e]
  have hT : 0 < 2 ^ (fmt.prec - 1) := by positivity
  generalize 2 ^ (fmt.prec - 1) = T at c hT
  constructor <;> nlinarith

theorem roundMag_zero (fmt : FloatFormat) (den : Nat) : roundMag fmt 0 den = 0 := by
  have h : bitLength 0 = 0 := rfl
  simp [roundMag, h]

theorem roundMag_relQ (num den : Nat) (hden : 0 < den) (hn : num = 0 ∨ 2 ^ 52 * den ≤ num) :
    (1 - 1 / 2 ^ 53) * (num : ℚ) ≤ (roundMag binary64 num den : ℚ) * den
    ∧ (roundMag binary64 num den : ℚ) * den ≤ (1 + 1 / 2 ^ 53) * num := by
  rcases hn with hn | hn
  · subst hn
    simp [roundMag_zero]
  · obtain ⟨h1, h2⟩ := roundMag_rel binary64 num den hden hn (by decide)
    have e : binary64.prec = 53 := rfl
    rw [e] at h1 h2
    have h1q : (2 ^ 53 : ℚ) * ((roundMag binary64 num den : ℚ) * den) ≤ (2 ^ 53 + 1) * num := by
      exact_mod_cast h1
    have h2q : (2 ^ 53 : ℚ) * num ≤ 2 ^ 53 * ((roundMag binary64 num den : ℚ) * den) + num := by
      exact_mod_cast h2
    constructor <;> linarith

/-- The chain of roundings behind `1.0 / d.Seconds()`, over an abstract unit count `S`. -/
theorem fps_chain_aux (S sec nsec a b0 b s f : Nat) (hS : 2 ^ 100 ≤ S) (hsec : sec ≤ 2 ^ 34)
    (hnsec : nsec < 10 ^ 9) (hD : 0 < 10 ^ 9 * sec + nsec)
    (ea : a = roundMag binary64 (sec * S) 1)
    (eb0 : b0 = roundMag binary64 (nsec * S) 1)
    (eb : b = roundMag binary64 (b0 * S) (10 ^ 9 * S))
    (es : s = roundMag binary64 (a + b) 1)
    (ef : f = roundMag binary64 (S * S) s) :
    a < 2 ^ 1024 * S ∧ b0 < 2 ^ 1024 * S ∧ b < 2 ^ 1024 * S ∧ 0 < a + b
      ∧ 0 < s ∧ s < 2 ^ 1024 * S ∧ f < 2 ^ 1024 * S
      ∧ (f : ℚ) * (10 ^ 9 * sec + nsec) ≤ 10 ^ 9 * (1 + 1 / 10 ^ 13) * S
      ∧ 10 ^ 9 * (1 - 1 / 10 ^ 13) * S ≤ (f : ℚ) * (10 ^ 9 * sec + nsec) := by
  have hSq : (2 : ℚ) ^ 100 ≤ S := by exact_mod_cast hS
  have hSpos : (0 : ℚ) < S := lt_of_lt_of_le (by positivity) hSq
  have hsecq : (sec : ℚ) ≤ 2 ^ 34 := by exact_mod_cast hsec
  have hnsecq : (nsec : ℚ) ≤ 10 ^ 9 := by exact_mod_cast hnsec.le
  have hsec0 : (0 : ℚ) ≤ sec := Nat.cast_nonneg _
  have hnsec0 : (0 : ℚ) ≤ nsec := Nat.cast_nonneg _
  have hDq : (1 : ℚ) ≤ 10 ^ 9 * sec + nsec := by exact_mod_cast hD
  -- the two constants of a rounding
  obtain ⟨p, hp⟩ : ∃ p : ℚ, p = 1 - 1 / 2 ^ 53 := ⟨_, rfl⟩
  obtain ⟨P, hP⟩ : ∃ P : ℚ, P = 1 + 1 / 2 ^ 53 := ⟨_, rfl⟩
  have hp1 : p ≤ 1 := by rw [hp]; norm_num
  have hp2 : 1 / 2 ≤ p := by rw [hp]; norm_num
  have hP1 : 1 ≤ P := by rw [hP]; norm_num
  have hP2 : P ≤ 2 := by rw [hP]; norm_num
  have hfin1 : P ≤ (1 + 1 / 10 ^ 13) * p ^ 3 := by rw [hp, hP]; norm_num
  have hfin2 : (1 - 1 / 10 ^ 13) * P ^ 3 ≤ p := by rw [hp, hP]; norm_num
  have hp0 : 0 < p := by linarith
  -- a
  have ha := roundMag_relQ (sec * S) 1 one_pos (by
    rcases Nat.eq_zero_or_pos sec with h | h
    · left; simp [h]
    · right
      calc 2 ^ 52 * 1 ≤ 2 ^ 100 := by norm_num
        _ ≤ S := hS
        _ ≤ sec * S := Nat.le_mul_of_pos_left S h)
  rw [← hp, ← hP, ← ea] at ha
  push_cast at ha
  simp only [mul_one] at ha
  obtain ⟨ha1, ha2⟩ := ha
  -- b0
  have hb0 := roundMag_relQ (nsec * S) 1 one_pos (by
    rcases Nat.eq_zero_or_pos nsec with h | h
    · left; simp [h]
    · right
      calc 2 ^ 52 * 1 ≤ 2 ^ 100 := by norm_num
        _ ≤ S := hS
        _ ≤ nsec * S := Nat.le_mul_of_pos_left S h)
  rw [← hp, ← hP, ← eb0] at hb0
  push_cast at hb0
  simp only [mul_one] at hb0
  obtain ⟨hb01, hb02⟩ := hb0
  -- b
  have hb0nn : (0 : ℚ) ≤ (b0 : ℚ) := Nat.cast_nonneg _
  have hb := roundMag_relQ (b0 * S) (10 ^ 9 * S) (by positivity) (by
    rcases Nat.eq_zero_or_pos nsec with h | h
    · left
      have : b0 = 0 := by simp [eb0, h, roundMag_zero]
      simp [this]
    · right
      have h1 : (1 : ℚ) ≤ nsec := by exact_mod_cast h
      have h2 : (2 : ℚ) ^ 52 * 10 ^ 9 ≤ (b0 : ℚ) := by
        have : (2 : ℚ) ^ 52 * 10 ^ 9 ≤ 1 / 2 * (1 * 2 ^ 100) := by norm_num
        have h3 : 1 / 2 * (1 * (2 : ℚ) ^ 100) ≤ p * (nsec * S) :=
          mul_le_mul hp2 (mul_le_mul h1 hSq (by positivity) hnsec0) (by positivity) hp0.le
        linarith only [this, h3, hb01]
      have h4 : 2 ^ 52 * 10 ^ 9 ≤ b0 := by exact_mod_cast h2
      calc 2 ^ 52 * (10 ^ 9 * S) = 2 ^ 52 * 10 ^ 9 * S := by ring
        _ ≤ b0 * S := Nat.mul_le_mul_right S h4)
  rw [← hp, ← hP, ← eb] at hb
  push_cast at hb
  obtain ⟨hb1, hb2⟩ := hb
  have hbnn : (0 : ℚ) ≤ (b : ℚ) := Nat.cast_nonneg _
  have hb1' : p * b0 ≤ (b : ℚ) * 10 ^ 9 := by
    have : (p * b0) * S ≤ ((b : ℚ) * 10 ^ 9) * S := by linarith only [hb1]
    exact le_of_mul_le_mul_right this hSpos
  have hb2' : (b : ℚ) * 10 ^ 9 ≤ P * b0 := by
    have : ((b : ℚ) * 10 ^ 9) * S ≤ (P * b0) * S := by linarith only [hb2]
    exact le_of_mul_le_mul_right this hSpos
  -- the exact sum a + b against T = D * S / 10 ^ 9
  have hnS : (0 : ℚ) ≤ nsec * S := by positivity
  have hsS : (0 : ℚ) ≤ sec * S := by positivity
  have hpp : p ^ 2 ≤ p := by
    have := mul_le_mul_of_nonneg_left hp1 hp0.le
    rw [mul_one] at this
    rwa [sq]
  have hPP : P ≤ P ^ 2 := by
    have := mul_le_mul_of_nonneg_left hP1 (by linarith only [hP1] : (0 : ℚ) ≤ P)
    rw [mul_one] at this
    rwa [sq]
  have hlow : p ^ 2 * ((10 ^ 9 * sec + nsec) * S) ≤ 10 ^ 9 * ((a : ℚ) + b) := by
    have e1 : p ^ 2 * (sec * S) ≤ p * (sec * S) := mul_le_mul_of_nonneg_right hpp hsS
    have e2 : p ^ 2 * (nsec * S) ≤ p * b0 := by
      have : p * (p * (nsec * S)) ≤ p * b0 := mul_le_mul_of_nonneg_left hb01 hp0.le
      linarith only [this]
    linarith only [e1, e2, ha1, hb1']
  have hupp : 10 ^ 9 * ((a : ℚ) + b) ≤ P ^ 2 * ((10 ^ 9 * sec + nsec) * S) := by
    have e1 : P * (sec * S) ≤ P ^ 2 * (sec * S) := mul_le_mul_of_nonneg_right hPP hsS
    have e2 : P * b0 ≤ P ^ 2 * (nsec * S) := by
      have : P * b0 ≤ P * (P * (nsec * S)) :=
        mul_le_mul_of_nonneg_left hb02 (by linarith only [hP1])
      linarith only [this]
    linarith only [e1, e2, ha2, hb2']
  have hDS : (2 : ℚ) ^ 100 ≤ (10 ^ 9 * (sec : ℚ) + nsec) * S := by
    have := mul_le_mul hDq hSq (by positivity) (by linarith only [hDq])
    linarith only [this]
  have hDS2 : (10 ^ 9 * (sec : ℚ) + nsec) * S ≤ 2 ^ 65 * S := by
    apply mul_le_mul_of_nonneg_right _ hSpos.le
    have : (10 : ℚ) ^ 9 * 2 ^ 34 + 10 ^ 9 ≤ 2 ^ 65 := by norm_num
    linarith only [this, hsecq, hnsecq]
  have hp2' : 1 / 4 ≤ p ^ 2 := by
    have := mul_le_mul hp2 hp2 (by norm_num) hp0.le
    rw [sq]
    linarith only [this]
  have hP2' : P ^ 2 ≤ 4 := by
    have := mul_le_mul hP2 hP2 (by linarith only [hP1]) (by norm_num)
    rw [sq]
    linarith only [this]
  have hab_low : (2 : ℚ) ^ 60 ≤ (a : ℚ) + b := by
    have h1 : 1 / 4 * (2 : ℚ) ^ 100 ≤ p ^ 2 * ((10 ^ 9 * sec + nsec) * S) :=
      mul_le_mul hp2' hDS (by positivity) (by positivity)
    have h3 : (2 : ℚ) ^ 60 * 10 ^ 9 ≤ 1 / 4 * 2 ^ 100 := by norm_num
    linarith only [h1, h3, hlow]
  have hab_upp : (a : ℚ) + b ≤ 2 ^ 38 * S := by
    have hnn : (0 : ℚ) ≤ (10 ^ 9 * (sec : ℚ) + nsec) * S :=
      le_trans (by positivity) hDS
    have h1 : P ^ 2 * ((10 ^ 9 * sec + nsec) * S) ≤ 4 * (2 ^ 65 * S) :=
      mul_le_mul hP2' hDS2 hnn (by norm_num)
    have h3 : (4 : ℚ) * 2 ^ 65 ≤ 10 ^ 9 * 2 ^ 38 := by norm_num
    have h4 : (4 : ℚ) * 2 ^ 65 * S ≤ 10 ^ 9 * 2 ^ 38 * S :=
      mul_le_mul_of_nonneg_right h3 hSpos.le
    linarith only [h1, h4, hupp]
  have hab_pos : 0 < a + b := by
    have h0 : (0 : ℚ) < 2 ^ 60 := by positivity
    have : (0 : ℚ) < ((a + b : ℕ) : ℚ) := by push_cast; linarith only [hab_low, h0]
    exact_mod_cast this
  -- s
  have hs := roundMag_relQ (a + b) 1 one_pos (by
    right
    have : (2 : ℚ) ^ 52 * 1 ≤ ((a + b : ℕ) : ℚ) := by
      push_cast
      have : (2 : ℚ) ^ 52 * 1 ≤ 2 ^ 60 := by norm_num
      linarith only [this, hab_low]
    exact_mod_cast this)
  rw [← hp, ← hP, ← es] at hs
  push_cast at hs
  simp only [mul_one] at hs
  obtain ⟨hs1, hs2⟩ := hs
  have hsnn : (0 : ℚ) ≤ (s : ℚ) := Nat.cast_nonneg _
  have hs_low : p ^ 3 * ((10 ^ 9 * sec + nsec) * S) ≤ 10 ^ 9 * (s : ℚ) := by
    have : p * (p ^ 2 * ((10 ^ 9 * sec + nsec) * S)) ≤ p * (10 ^ 9 * ((a : ℚ) + b)) :=
      mul_le_mul_of_nonneg_left hlow hp0.le
    have e : p ^ 3 = p * p ^ 2 := by ring
    rw [e]
    linarith only [this, hs1]
  have hs_upp : 10 ^ 9 * (s : ℚ) ≤ P ^ 3 * ((10 ^ 9 * sec + nsec) * S) := by
    have : P * (10 ^ 9 * ((a : ℚ) + b)) ≤ P * (P ^ 2 * ((10 ^ 9 * sec + nsec) * S)) :=
      mul_le_mul_of_nonneg_left hupp (by linarith only [hP1])
    have e : P ^ 3 = P * P ^ 2 := by ring
    rw [e]
    linarith only [this, hs2]
  have hs_lo2 : (2 : ℚ) ^ 59 ≤ s := by
    have := mul_le_mul hp2 hab_low (by positivity) hp0.le
    have h3 : (2 : ℚ) ^ 59 = 1 / 2 * 2 ^ 60 := by norm_num
    linarith only [this, hs1, h3]
  have hs_up2 : (s : ℚ) ≤ 2 ^ 39 * S := by
    have := mul_le_mul hP2 hab_upp (by linarith only [hab_low, show (0:ℚ) < 2 ^ 60 by positivity])
      (by norm_num)
    have h3 : (2 : ℚ) * (2 ^ 38 * S) = 2 ^ 39 * S := by ring
    linarith only [this, hs2, h3]
  have hs_pos : 0 < s := by
    have h0 : (0 : ℚ) < 2 ^ 59 := by positivity
    have : (0 : ℚ) < (s : ℚ) := by linarith only [hs_lo2, h0]
    exact_mod_cast this
  -- f
  have hf := roundMag_relQ (S * S) s hs_pos (by
    right
    have h1 : (2 : ℚ) ^ 52 * s ≤ 2 ^ 52 * (2 ^ 39 * S) :=
      mul_le_mul_of_nonneg_left hs_up2 (by positivity)
    have h2 : (2 : ℚ) ^ 52 * (2 ^ 39 * S) ≤ S * S := by
      have : (2 : ℚ) ^ 52 * 2 ^ 39 ≤ 2 ^ 100 := by norm_num
      have := mul_le_mul_of_nonneg_right (this.trans hSq) hSpos.le
      linarith only [this]
    have : (((2 ^ 52 * s : ℕ)) : ℚ) ≤ ((S * S : ℕ) : ℚ) := by
      push_cast
      linarith only [h1, h2]
    exact_mod_cast this)
  rw [← hp, ← hP, ← ef] at hf
  push_cast at hf
  obtain ⟨hf1, hf2⟩ := hf
  have hfnn : (0 : ℚ) ≤ (f : ℚ) := Nat.cast_nonneg _
  have hDnn : (0 : ℚ) ≤ 10 ^ 9 * (sec : ℚ) + nsec := by linarith only [hDq]
  have hSS : (0 : ℚ) ≤ (S : ℚ) * S := mul_nonneg hSpos.le hSpos.le
  have hp3 : 0 < p ^ 3 := pow_pos hp0 3
  have hP0 : 0 < P := by linarith only [hP1]
  have hP3 : 0 < P ^ 3 := pow_pos hP0 3
  have hupper : (f : ℚ) * (10 ^ 9 * sec + nsec) ≤ 10 ^ 9 * (1 + 1 / 10 ^ 13) * S := by
    have h1 : (f : ℚ) * (p ^ 3 * ((10 ^ 9 * sec + nsec) * S)) ≤ f * (10 ^ 9 * (s : ℚ)) :=
      mul_le_mul_of_nonneg_left hs_low hfnn
    have h3 : P * ((S : ℚ) * S) ≤ (1 + 1 / 10 ^ 13) * p ^ 3 * (S * S) :=
      mul_le_mul_of_nonneg_right hfin1 hSS
    have h4 : ((f : ℚ) * (10 ^ 9 * sec + nsec)) * (p ^ 3 * S)
        ≤ (10 ^ 9 * (1 + 1 / 10 ^ 13) * S) * (p ^ 3 * S) := by
      linarith only [h1, h3, hf2]
    exact le_of_mul_le_mul_right h4 (mul_pos hp3 hSpos)
  have hlower : 10 ^ 9 * (1 - 1 / 10 ^ 13) * S ≤ (f : ℚ) * (10 ^ 9 * sec + nsec) := by
    have h1 : (f : ℚ) * (10 ^ 9 * (s : ℚ)) ≤ f * (P ^ 3 * ((10 ^ 9 * sec + nsec) * S)) :=
      mul_le_mul_of_nonneg_left hs_upp hfnn
    have h3 : (1 - 1 / 10 ^ 13) * P ^ 3 * ((S : ℚ) * S) ≤ p * (S * S) :=
      mul_le_mul_of_nonneg_right hfin2 hSS
    have h4 : (10 ^ 9 * (1 - 1 / 10 ^ 13) * S) * (P ^ 3 * S)
        ≤ ((f : ℚ) * (10 ^ 9 * sec + nsec)) * (P ^ 3 * S) := by
      linarith only [h1, h3, hf1]
    exact le_of_mul_le_mul_right h4 (mul_pos hP3 hSpos)
  have tolt : ∀ x : ℕ, (x : ℚ) ≤ 2 ^ 39 * S → x < 2 ^ 1024 * S := by
    intro x hx
    have h1 : (2 : ℚ) ^ 39 * S < 2 ^ 1024 * S :=
      mul_lt_mul_of_pos_right (by norm_num) hSpos
    have : (x : ℚ) < ((2 ^ 1024 * S : ℕ) : ℚ) := by
      push_cast
      linarith only [hx, h1]
    exact_mod_cast this
  have hanq : (0 : ℚ) ≤ (a : ℚ) := Nat.cast_nonneg _
  have h38 : (2 : ℚ) ^ 38 * S ≤ 2 ^ 39 * S :=
    mul_le_mul_of_nonneg_right (by norm_num) hSpos.le
  have hb0_up : (b0 : ℚ) ≤ 2 ^ 39 * S := by
    have h1 : P * ((nsec : ℚ) * S) ≤ 2 * (10 ^ 9 * S) :=
      mul_le_mul hP2 (mul_le_mul_of_nonneg_right hnsecq hSpos.le) hnS (by norm_num)
    have h2 : (2 : ℚ) * (10 ^ 9 * S) ≤ 2 ^ 39 * S := by
      have : (2 : ℚ) * 10 ^ 9 ≤ 2 ^ 39 := by norm_num
      have := mul_le_mul_of_nonneg_right this hSpos.le
      linarith only [this]
    linarith only [h1, h2, hb02]
  have hf_up : (f : ℚ) ≤ 2 ^ 39 * S := by
    have h1 : (f : ℚ) * 1 ≤ f * (10 ^ 9 * sec + nsec) := mul_le_mul_of_nonneg_left hDq hfnn
    have h2 : (10 : ℚ) ^ 9 * (1 + 1 / 10 ^ 13) * S ≤ 2 ^ 39 * S :=
      mul_le_mul_of_nonneg_right (by norm_num) hSpos.le
    linarith only [h1, h2, hupper]
  exact ⟨tolt a (by linarith only [hab_upp, hbnn, h38]), tolt b0 hb0_up,
    tolt b (by linarith only [hab_upp, hanq, h38]), hab_pos, hs_pos, tolt s hs_up2,
    tolt f hf_up, hupper, hlower⟩

/-! ## The value of `1.0 / elapsedTime.Seconds()` -/

theorem const_1e9 : (1e9 : F64) = FP.finite false (10 ^ 9 * 2 ^ 1074) := by decide

theorem const_one : (1.0 : F64) = FP.finite false (2 ^ 1074) := by decide

theorem round_finite (s : Bool) (num den : Nat)
    (h : roundMag binary64 num den < 2 ^ 1024 * 2 ^ 1074) :
    FP.round binary64 s num den = FP.finite s (roundMag binary64 num den) := by
  have e : 2 ^ (binary64.emax + binary64.scale) = 2 ^ 1024 * 2 ^ 1074 := by
    show 2 ^ (1024 + 1074) = _
    rw [pow_add]
  simp only [FP.round, e, Nat.not_le.2 h, if_false]

theorem ofInt_signed (n : Nat) (sgn : Bool)
    (h : roundMag binary64 (n * 2 ^ 1074) 1 < 2 ^ 1024 * 2 ^ 1074) :
    ∃ sa : Bool, FP.ofInt binary64 (if sgn then -(n : Int) else n) =
        FP.finite sa (roundMag binary64 (n * 2 ^ 1074) 1)
      ∧ (n ≠ 0 → sa = sgn) := by
  refine ⟨decide ((if sgn then -(n : Int) else n) < 0), ?_, ?_⟩
  · have e : (if sgn then -(n : Int) else (n : Int)).natAbs = n := by
      cases sgn <;> simp
    simp only [FP.ofInt, FP.ofRatio, e]
    exact round_finite _ _ _ h
  · intro hn
    cases sgn
    · simp
    · simp
      omega

theorem tdiv_signed (D : Nat) (sgn : Bool) :
    (if sgn then -(D : Int) else D).tdiv Second =
        (if sgn then -((D / 10 ^ 9 : Nat) : Int) else ((D / 10 ^ 9 : Nat) : Int))
    ∧ (if sgn then -(D : Int) else D).tmod Second =
        (if sgn then -((D % 10 ^ 9 : Nat) : Int) else ((D % 10 ^ 9 : Nat) : Int)) := by
  cases sgn
  · exact ⟨rfl, rfl⟩
  · constructor
    · simp only [if_true, Int.neg_tdiv]
      rfl
    · cases D with
      | zero => rfl
      | succ n => rfl

theorem signedMag_zero (s : Bool) : FP.signedMag s 0 = 0 := by
  cases s <;> simp [FP.signedMag]

theorem add_finite_same (fmt : FloatFormat) (s sa sb : Bool) (a b : Nat) (h : 0 < a + b)
    (hsa : a ≠ 0 → sa = s) (hsb : b ≠ 0 → sb = s) :
    (FP.finite sa a : FP fmt) + FP.finite sb b = FP.round fmt s (a + b) 1 := by
  have hsum : FP.signedMag sa a + FP.signedMag sb b = FP.signedMag s (a + b) := by
    have e1 : FP.signedMag sa a = FP.signedMag s a := by
      rcases Nat.eq_zero_or_pos a with ha | ha
      · subst ha; simp [signedMag_zero]
      · rw [hsa (by omega)]
    have e2 : FP.signedMag sb b = FP.signedMag s b := by
      rcases Nat.eq_zero_or_pos b with hb | hb
      · subst hb; simp [signedMag_zero]
      · rw [hsb (by omega)]
    rw [e1, e2]
    cases s
    · simp [FP.signedMag]
    · simp [FP.signedMag]
      ring
  show FP.add _ _ = _
  simp only [FP.add, hsum]
  cases s
  · have h1 : FP.signedMag false (a + b) = ((a + b : Nat) : Int) := by simp [FP.signedMag]
    rw [h1]
    have h2 : ¬ (((a + b : Nat) : Int) = 0) := by omega
    have h3 : ¬ (((a + b : Nat) : Int) < 0) := by omega
    simp only [h2, if_false, h3, decide_False, Int.natAbs_ofNat]
  · have h1 : FP.signedMag true (a + b) = -((a + b : Nat) : Int) := by simp [FP.signedMag]
    rw [h1]
    have h2 : ¬ (-((a + b : Nat) : Int) = 0) := by omega
    have h3 : (-((a + b : Nat) : Int) < 0) := by omega
    simp only [h2, if_false, h3, decide_True, Int.natAbs_neg, Int.natAbs_ofNat]

/-- The value of `1.0 / d.Seconds()` for a duration of `D > 0` nanoseconds taken with either
sign, and how close its magnitude is to `10 ^ 9 / D`. -/
theorem fps_value (D : Nat) (hD : 0 < D) (hmax : D ≤ 2 ^ 63) (sgn : Bool) :
    (1.0 : F64) / Seconds (if sgn then -(D : Int) else D) = FP.finite sgn (fpsMag D)
    ∧ (fpsMag D : ℚ) * D ≤ 10 ^ 9 * (1 + 1 / 10 ^ 13) * 2 ^ 1074
    ∧ 10 ^ 9 * (1 - 1 / 10 ^ 13) * 2 ^ 1074 ≤ (fpsMag D : ℚ) * D := by
  have hsec : D / 10 ^ 9 ≤ 2 ^ 34 := by
    have : D / 10 ^ 9 ≤ 2 ^ 63 / 10 ^ 9 := Nat.div_le_div_right hmax
    exact this.trans (by norm_num)
  have hnsec : D % 10 ^ 9 < 10 ^ 9 := Nat.mod_lt _ (by norm_num)
  have hDeq : 10 ^ 9 * (D / 10 ^ 9) + D % 10 ^ 9 = D := Nat.div_add_mod D (10 ^ 9)
  obtain ⟨ha, hb0, hb, hab, hs, hs2, hf, hu, hl⟩ :=
    fps_chain_aux (2 ^ 1074) (D / 10 ^ 9) (D % 10 ^ 9) _ _ _ _ _
      (Nat.pow_le_pow_right (by norm_num) (by norm_num)) hsec hnsec (by omega)
      rfl rfl rfl rfl rfl
  have hcast : (10 ^ 9 * ((D / 10 ^ 9 : ℕ) : ℚ) + ((D % 10 ^ 9 : ℕ) : ℚ)) = (D : ℚ) := by
    exact_mod_cast hDeq
  rw [hcast] at hu hl
  simp only [Nat.cast_pow, Nat.cast_ofNat] at hu hl
  refine ⟨?_, ?_, ?_⟩
  · obtain ⟨t1, t2⟩ := tdiv_signed D sgn
    obtain ⟨sa, ea, hsa⟩ := ofInt_signed (D / 10 ^ 9) sgn ha
    obtain ⟨sb, eb, hsb⟩ := ofInt_signed (D % 10 ^ 9) sgn hb0
    simp only [Seconds, t1, t2, ea, eb, const_1e9, const_one]
    have hdiv : (FP.finite sb (roundMag binary64 (D % 10 ^ 9 * 2 ^ 1074) 1) : F64)
          / FP.finite false (10 ^ 9 * 2 ^ 1074)
        = FP.finite sb (roundMag binary64
            (roundMag binary64 (D % 10 ^ 9 * 2 ^ 1074) 1 * 2 ^ 1074) (10 ^ 9 * 2 ^ 1074)) := by
      show FP.div _ _ = _
      have hc : ¬ (10 ^ 9 * 2 ^ 1074 = 0) := by positivity
      simp only [FP.div, hc, if_false, Bool.xor_false]
      exact round_finite _ _ _ hb
    rw [hdiv]
    have hsum := add_finite_same binary64 sgn sa sb _ _ hab
      (by
        intro hne
        apply hsa
        intro h0
        apply hne
        rw [h0]
        simp [roundMag_zero])
      (by
        intro hne
        apply hsb
        intro h0
        apply hne
        rw [h0]
        simp [roundMag_zero])
    rw [hsum, round_finite _ _ _ hs2]
    show FP.div _ _ = _
    have hs0 : ¬ (secondsMag D = 0) := by
      have : 0 < secondsMag D := hs
      omega
    show FP.div (FP.finite false (2 ^ 1074)) (FP.finite sgn (secondsMag D)) = _
    simp only [FP.div, hs0, if_false, Bool.false_xor]
    exact round_finite _ _ _ hf
  · exact hu
  · exact hl

/-- The hundredths printed are within one half of a hundred times the exact value. -/
theorem hundredths_near (m : Nat) :
    2 * (hundredths m * 2 ^ 1074) ≤ 2 * (m * 100) + 2 ^ 1074
    ∧ 2 * (m * 100) ≤ 2 * (hundredths m * 2 ^ 1074) + 2 ^ 1074 := by
  unfold hundredths
  have e : binary64.scale = 1074 := rfl
  rw [e]
  have hq : 0 < 2 ^ 1074 := by positivity
  generalize 2 ^ 1074 = q at hq
  generalize m * 100 = M
  have h1 := Nat.div_add_mod M q
  have h2 := Nat.mod_lt M hq
  have h3 : M / q * q = q * (M / q) := Nat.mul_comm _ _
  simp only [apply_ite (· * q), Nat.add_mul, one_mul, h3]
  generalize q * (M / q) = N at h1
  split_ifs with hc
  · rcases hc with hc | ⟨hc, -⟩ <;> omega
  · have : ¬ q < 2 * (M - N) := fun h => hc (Or.inl h)
    omega

/-- The hundredths printed for a duration of `D` nanoseconds are a nearest integer to
`10 ^ 11 / D`: what `1 / (D ns)` is in hundredths of a frame per second. -/
theorem fps_hundredths (D : Nat) (hD : 0 < D) (hmax : D ≤ 2 ^ 63) :
    2 * (hundredths (fpsMag D) * D) ≤ 2 * 10 ^ 11 + D
    ∧ 2 * 10 ^ 11 ≤ 2 * (hundredths (fpsMag D) * D) + D := by
  obtain ⟨-, hu, hl⟩ := fps_value D hD hmax false
  obtain ⟨c1, c2⟩ := hundredths_near (fpsMag D)
  have c1q : (2 : ℚ) * ((hundredths (fpsMag D) : ℚ) * 2 ^ 1074)
      ≤ 2 * ((fpsMag D : ℚ) * 100) + 2 ^ 1074 := by exact_mod_cast c1
  have c2q : (2 : ℚ) * ((fpsMag D : ℚ) * 100)
      ≤ 2 * ((hundredths (fpsMag D) : ℚ) * 2 ^ 1074) + 2 ^ 1074 := by exact_mod_cast c2
  have hS : (0 : ℚ) < 2 ^ 1074 := by positivity
  generalize (2 : ℚ) ^ 1074 = S at hu hl c1q c2q hS
  generalize hk : (hundredths (fpsMag D) : ℚ) = k at c1q c2q
  generalize hf : (fpsMag D : ℚ) = f at hu hl c1q c2q
  have hDq : (0 : ℚ) ≤ D := Nat.cast_nonneg _
  have m1 := mul_le_mul_of_nonneg_right c1q hDq
  have m2 := mul_le_mul_of_nonneg_right c2q hDq
  have up : (2 * (k * D)) * S ≤ (2 * 10 ^ 11 + D + 1 / 2) * S := by
    nlinarith only [m1, hu, hS]
  have lo : (2 * 10 ^ 11) * S ≤ (2 * (k * D) + D + 1 / 2) * S := by
    nlinarith only [m2, hl, hS]
  have up' := le_of_mul_le_mul_right up hS
  have lo' := le_of_mul_le_mul_right lo hS
  have h1 : ((2 * (hundredths (fpsMag D) * D) : ℕ) : ℚ) < ((2 * 10 ^ 11 + D + 1 : ℕ) : ℚ) := by
    push_cast
    rw [hk]
    linarith only [up']
  have h2 : ((2 * 10 ^ 11 : ℕ) : ℚ) < ((2 * (hundredths (fpsMag D) * D) + D + 1 : ℕ) : ℚ) := by
    push_cast
    rw [hk]
    linarith only [lo']
  have h1n : 2 * (hundredths (fpsMag D) * D) < 2 * 10 ^ 11 + D + 1 := by exact_mod_cast h1
  have h2n : 2 * 10 ^ 11 < 2 * (hundredths (fpsMag D) * D) + D + 1 := by exact_mod_cast h2
  constructor <;> omega

theorem timeSub_range (t u : Int) :
    -(2 ^ 63) ≤ timeSub t u ∧ timeSub t u ≤ 2 ^ 63 - 1 := by
  unfold timeSub minDuration maxDuration
  split_ifs <;> constructor <;> omega

theorem fpsDisplay_zero : fpsDisplay 0 = "FPS: +Inf" := by decide

theorem fpsDisplay_pos (d : Int) (hd : 0 < d) (hmax : d ≤ 2 ^ 63 - 1) :
    fpsDisplay d = "FPS: " ++ fixed2 (hundredths (fpsMag d.toNat))
    ∧ 2 * |(hundredths (fpsMag d.toNat) : Int) * d - 10 ^ 11| ≤ d := by
  obtain ⟨D, rfl⟩ : ∃ D : Nat, d = D := ⟨d.toNat, by omega⟩
  have hD : 0 < D := by omega
  have hmaxD : D ≤ 2 ^ 63 := by omega
  obtain ⟨hv, -, -⟩ := fps_value D hD hmaxD false
  obtain ⟨n1, n2⟩ := fps_hundredths D hD hmaxD
  simp only [Bool.false_eq_true, if_false] at hv
  refine ⟨?_, ?_⟩
  · simp only [fpsDisplay, hv, formatF2, Int.toNat_ofNat, Bool.false_eq_true, if_false,
      String.empty_append]
  · simp only [Int.toNat_ofNat]
    have i2 : (2 * 10 ^ 11 : Int) ≤ 2 * ((hundredths (fpsMag D) : Int) * D) + D := by
      exact_mod_cast n2
    have i1 : (2 * ((hundredths (fpsMag D) : Int) * D) : Int) ≤ 2 * 10 ^ 11 + D := by
      exact_mod_cast n1
    generalize (hundredths (fpsMag D) : Int) * D = X at i1 i2
    rcases abs_cases (X - 10 ^ 11) with ⟨e, -⟩ | ⟨e, -⟩ <;> rw [e] <;> omega

theorem fpsDisplay_neg (d : Int) (hd : d < 0) (hmin : -(2 ^ 63) ≤ d) :
    fpsDisplay d = "FPS: -" ++ fixed2 (hundredths (fpsMag d.natAbs))
    ∧ 2 * |(hundredths (fpsMag d.natAbs) : Int) * (-d) - 10 ^ 11| ≤ -d := by
  obtain ⟨D, rfl⟩ : ∃ D : Nat, d = -(D : Int) := ⟨d.natAbs, by omega⟩
  have hD : 0 < D := by omega
  have hmaxD : D ≤ 2 ^ 63 := by omega
  obtain ⟨hv, -, -⟩ := fps_value D hD hmaxD true
  obtain ⟨n1, n2⟩ := fps_hundredths D hD hmaxD
  simp only [if_true] at hv
  refine ⟨?_, ?_⟩
  · simp only [fpsDisplay, hv, formatF2, Int.natAbs_neg, Int.natAbs_ofNat, if_true]
    rw [← String.append_assoc]
    rfl
  · simp only [Int.natAbs_neg, Int.natAbs_ofNat, neg_neg]
    have i2 : (2 * 10 ^ 11 : Int) ≤ 2 * ((hundredths (fpsMag D) : Int) * D) + D := by
      exact_mod_cast n2
    have i1 : (2 * ((hundredths (fpsMag D) : Int) * D) : Int) ≤ 2 * 10 ^ 11 + D := by
      exact_mod_cast n1
    generalize (hundredths (fpsMag D) : Int) * D = X at i1 i2
    rcases abs_cases (X - 10 ^ 11) with ⟨e, -⟩ | ⟨e, -⟩ <;> rw [e] <;> omega

theorem tick_fpsText (h : Host) (w : World) (t : Int × Int) (hw : Ready h w) :
    (tick h w t).fpsText = some (fpsDisplay (timeSub t.2 t.1)) := by
  rw [tick_of_ready h w t hw]
  exact (drawScene_frame h t.1 t.2 _).2.2.2.2.2.2.2.2.2

theorem fps_sixteen_ms :
    fpsDisplay 16000000 = "FPS: 62.50"
    ∧ (1.0 : F64) / Seconds 16000000 = FP.finite false (125 * 2 ^ 1073)
    ∧ ((1.0 : F64) / Seconds 16000000).toRat = 125 / 2 := by
  refine ⟨by decide, by decide, ?_⟩
  have : (1.0 : F64) / Seconds 16000000 = FP.finite false (125 * 2 ^ 1073) := by decide
  rw [this]
  simp only [FP.toRat, Bool.false_eq_true, if_false]
  have e : binary64.scale = 1073 + 1 := rfl
  rw [e, pow_succ]
  push_cast
  field_simp
  ring

/-! ## The first hundred angle updates -/

set_option maxHeartbeats 4000000 in
theorem angleTable_checked : angleTableOk = true := by decide

theorem angleTable_step (n : Nat) (hn : n < 100) :
    stepAngle (tableAngle (tableEntry n)) = tableAngle (tableEntry (n + 1))
    ∧ tableEntry n < tableEntry (n + 1)
    ∧ nearHundredth n (tableEntry n) = true
    ∧ nearHundredth (n + 1) (tableEntry (n + 1)) = true := by
  have h := angleTable_checked
  rw [angleTableOk, List.all_eq_true] at h
  have h1 := h n (List.mem_range.2 hn)
  simp only [Bool.and_eq_true, beq_iff_eq, decide_eq_true_eq] at h1
  exact ⟨h1.1.1.1, h1.1.1.2, h1.1.2, h1.2⟩

theorem angleAfter_table (n : Nat) (hn : n ≤ 100) :
    angleAfter n = tableAngle (tableEntry n) := by
  induction n with
  | zero => rfl
  | succ n ih =>
    have e : angleAfter (n + 1) = stepAngle (angleAfter n) :=
      Function.iterate_succ_apply' stepAngle n 0
    rw [e, ih (by omega)]
    exact (angleTable_step n (by omega)).1

theorem tableAngle_toRat (u : Nat) : (tableAngle u).toRat = u / 2 ^ 30 := by
  have e : binary32.scale = 119 + 30 := rfl
  simp only [tableAngle, FP.toRat, Bool.false_eq_true, if_false, e, pow_add]
  push_cast
  field_simp
  ring

theorem nearHundredth_spec (n u : Nat) (h : nearHundredth n u = true) :
    |(u : ℚ) / 2 ^ 30 - n / 100| ≤ 1 / 10 ^ 6 := by
  simp only [nearHundredth, decide_eq_true_eq] at h
  obtain ⟨h1, h2⟩ := h
  have q1 : (10 ^ 4 * (100 * u) : ℚ) ≤ 10 ^ 4 * (n * 2 ^ 30) + 2 ^ 30 := by exact_mod_cast h1
  have q2 : (10 ^ 4 * (n * 2 ^ 30) : ℚ) ≤ 10 ^ 4 * (100 * u) + 2 ^ 30 := by exact_mod_cast h2
  have hx : ((u : ℚ) / 2 ^ 30) * 2 ^ 30 = u := by field_simp
  generalize (u : ℚ) / 2 ^ 30 = x at hx ⊢
  rw [← hx] at q1 q2
  rw [abs_le]
  constructor <;> linarith only [q1, q2]

/-! ## The angle in the long run -/

theorem bitLength_le_of_lt (x k : Nat) (hx : x < 2 ^ k) : bitLength x ≤ k := by
  rcases Nat.eq_zero_or_pos x with h0 | h0
  · subst h0; simp [bitLength_zero]
  · obtain ⟨l, -⟩ := bitLength_spec x (by omega)
    have : 2 ^ (bitLength x - 1) < 2 ^ k := lt_of_le_of_lt l hx
    have := (Nat.pow_lt_pow_iff_right (by norm_num : 1 < 2)).1 this
    omega

theorem lt_bitLength_of_le (x k : Nat) (hx : 2 ^ k ≤ x) : k < bitLength x := by
  have h0 : x ≠ 0 := by
    have : 0 < 2 ^ k := by positivity
    omega
  obtain ⟨-, u⟩ := bitLength_spec x h0
  exact (Nat.pow_lt_pow_iff_right (by norm_num : 1 < 2)).1 (lt_of_le_of_lt hx u)

/-- The rounded magnitude is a multiple of the spacing. -/
theorem roundMag_dvd (fmt : FloatFormat) (num den : Nat) :
    2 ^ (bitLength (num / den) - fmt.prec) ∣ roundMag fmt num den := by
  simp only [roundMag]
  split_ifs
  · exact Dvd.intro_left _ rfl
  · exact Dvd.intro_left _ rfl

/-- Rounding does not cross a power of two that is a multiple of the spacing. -/
theorem roundMag_le_pow (fmt : FloatFormat) (x k : Nat) (hx : x < 2 ^ k)
    (hek : bitLength x - fmt.prec ≤ k) : roundMag fmt x 1 ≤ 2 ^ k := by
  simp only [roundMag, Nat.div_one, one_mul]
  generalize bitLength x - fmt.prec = e at hek
  have hk : 2 ^ k = 2 ^ e * 2 ^ (k - e) := by rw [← pow_add]; congr 1; omega
  have hn : x / 2 ^ e < 2 ^ (k - e) := Nat.div_lt_of_lt_mul (by rw [← hk]; exact hx)
  have h1 : (x / 2 ^ e + 1) * 2 ^ e ≤ 2 ^ k := by
    rw [hk, Nat.mul_comm]
    exact Nat.mul_le_mul_left _ hn
  have h2 : x / 2 ^ e * 2 ^ e ≤ (x / 2 ^ e + 1) * 2 ^ e :=
    Nat.mul_le_mul_right _ (Nat.le_succ _)
  split_ifs <;> omega

theorem round32_finite (s : Bool) (num den : Nat) (h : roundMag binary32 num den < 2 ^ 277) :
    FP.round binary32 s num den = FP.finite s (roundMag binary32 num den) := by
  have e : 2 ^ (binary32.emax + binary32.scale) = 2 ^ 277 := rfl
  simp only [FP.round, e, Nat.not_le.2 h, if_false]

theorem const_hundredth : (0.01 : F32) = FP.finite false (10737418 * 2 ^ 119) := by decide

theorem stepAngle_saturated :
    stepAngle (FP.finite false (2 ^ 167)) = FP.finite false (2 ^ 167) := by decide

/-- One update of the angle from a magnitude of at most `2 ^ 167` units (the number 262144)
that is a multiple of `2 ^ 143` units once it reaches `2 ^ 166`: the result is again such a
magnitude, and not smaller. -/
theorem stepAngle_bounded (m : Nat) (h1 : m ≤ 2 ^ 167) (h2 : 2 ^ 166 ≤ m → 2 ^ 143 ∣ m) :
    ∃ r, stepAngle (FP.finite false m) = FP.finite false r ∧ m ≤ r ∧ r ≤ 2 ^ 167
      ∧ (2 ^ 166 ≤ r → 2 ^ 143 ∣ r) := by
  rcases Nat.eq_or_lt_of_le h1 with heq | hlt
  · subst heq
    exact ⟨2 ^ 167, stepAngle_saturated, le_rfl, le_rfl, fun _ => Dvd.intro (2 ^ 24) rfl⟩
  · have hx : m + 10737418 * 2 ^ 119 < 2 ^ 167 := by
      rcases Nat.lt_or_ge m (2 ^ 166) with hm | hm
      · omega
      · obtain ⟨k, rfl⟩ := h2 hm
        have hk : k < 2 ^ 24 := by
          by_contra hk
          have : 2 ^ 143 * 2 ^ 24 ≤ 2 ^ 143 * k := Nat.mul_le_mul_left _ (by omega)
          have e : 2 ^ 143 * 2 ^ 24 = 2 ^ 167 := by rw [← pow_add]
          omega
        have : 2 ^ 143 * (k + 1) ≤ 2 ^ 143 * 2 ^ 24 := Nat.mul_le_mul_left _ (by omega)
        have e : 2 ^ 143 * 2 ^ 24 = 2 ^ 167 := by rw [← pow_add]
        have e2 : 2 ^ 143 * (k + 1) = 2 ^ 143 * k + 2 ^ 143 := by ring
        omega
    generalize hxd : m + 10737418 * 2 ^ 119 = x at hx
    have hL : bitLength x ≤ 167 := bitLength_le_of_lt x 167 hx
    have hr1 : roundMag binary32 x 1 ≤ 2 ^ 167 :=
      roundMag_le_pow binary32 x 167 hx (by omega)
    have hstep : stepAngle (FP.finite false m) = FP.finite false (roundMag binary32 x 1) := by
      show (FP.finite false m : F32) + 0.01 = _
      rw [const_hundredth, add_finite_same binary32 false false false m _ (by omega)
        (fun _ => rfl) (fun _ => rfl), hxd]
      exact round32_finite false x 1 (lt_of_le_of_lt hr1 (by norm_num))
    have hnear := (roundMag_near binary32 x 1 Nat.one_pos).2
    have hdvd := roundMag_dvd binary32 x 1
    simp only [Nat.div_one, Nat.mul_one, Nat.one_mul] at hnear hdvd
    have hp : (binary32.prec : Nat) = 24 := rfl
    rw [hp] at hnear hdvd
    have hq : 2 ^ (bitLength x - 24) ≤ 2 ^ 143 :=
      Nat.pow_le_pow_right (by norm_num) (by omega)
    refine ⟨roundMag binary32 x 1, hstep, by omega, hr1, ?_⟩
    intro hr
    rcases Nat.lt_or_ge x (2 ^ 166) with hx6 | hx6
    · have hL6 : bitLength x ≤ 166 := bitLength_le_of_lt x 166 hx6
      have : roundMag binary32 x 1 ≤ 2 ^ 166 :=
        roundMag_le_pow binary32 x 166 hx6 (by rw [hp]; omega)
      have e : roundMag binary32 x 1 = 2 ^ 166 := by omega
      rw [e]
      exact Dvd.intro (2 ^ 23) rfl
    · have hL7 : 166 < bitLength x := lt_bitLength_of_le x 166 hx6
      have e : bitLength x - 24 = 143 := by omega
      rw [e] at hdvd
      exact hdvd

/-- The angle after any number of updates is a finite non-negative `float32` of at most
`2 ^ 167` units, the number 262144. -/
theorem angleAfter_bounded (n : Nat) :
    ∃ m, angleAfter n = FP.finite false m ∧ m ≤ 2 ^ 167 ∧ (2 ^ 166 ≤ m → 2 ^ 143 ∣ m) := by
  induction n with
  | zero => exact ⟨0, rfl, by positivity, fun h => absurd h (by norm_num)⟩
  | succ n ih =>
    obtain ⟨m, e, h1, h2⟩ := ih
    obtain ⟨r, er, -, hr1, hr2⟩ := stepAngle_bounded m h1 h2
    refine ⟨r, ?_, hr1, hr2⟩
    have e2 : angleAfter (n + 1) = stepAngle (angleAfter n) :=
      Function.iterate_succ_apply' stepAngle n 0
    rw [e2, e, er]

theorem toRat_nonneg32 (m : Nat) : (FP.finite false m : F32).toRat = m / 2 ^ 149 := by
  simp [FP.toRat, binary32]

/-- The angle never decreases and never exceeds 262144. -/
theorem angleAfter_mono_le (n : Nat) :
    (angleAfter n).toRat ≤ (angleAfter (n + 1)).toRat ∧ (angleAfter n).toRat ≤ 262144 := by
  obtain ⟨m, e, h1, h2⟩ := angleAfter_bounded n
  obtain ⟨r, er, hmr, -, -⟩ := stepAngle_bounded m h1 h2
  have e2 : angleAfter (n + 1) = stepAngle (angleAfter n) :=
    Function.iterate_succ_apply' stepAngle n 0
  rw [e2, e, er, toRat_nonneg32, toRat_nonneg32]
  constructor
  · exact div_le_div_of_nonneg_right (by exact_mod_cast hmr) (by positivity)
  · rw [div_le_iff₀ (by positivity)]
    have : (m : ℚ) ≤ ((2 ^ 167 : ℕ) : ℚ) := by exact_mod_cast h1
    calc (m : ℚ) ≤ ((2 ^ 167 : ℕ) : ℚ) := this
      _ = 262144 * 2 ^ 149 := by norm_num

/-! ## The rotation angle -/

/-- C3 (counterexample): after exactly 100 frames from angle 0 the `float32` angle is
16777205 · 2⁻²⁴ = 0.99999934…, not 1.0. -/
theorem angle_after_100_frames_not_one :
    (run goodHost (List.replicate 100 (0, 16000000))).angle ≠ 1
    ∧ (run goodHost (List.replicate 100 (0, 16000000))).angle =
        FP.finite false (16777205 * 2 ^ 125)
    ∧ (run goodHost (List.replicate 100 (0, 16000000))).angle.toRat ≠ 100 * (1 / 100) := by
  have e : (run goodHost (List.replicate 100 (0, 16000000))).angle = angleAfter 100 := by
    rw [angle_run, List.length_replicate]
  have e2 : angleAfter 100 = FP.finite false (16777205 * 2 ^ 125) := by
    rw [angleAfter_table 100 le_rfl]
    decide
  rw [e, e2]
  refine ⟨by decide, rfl, ?_⟩
  have e3 : (FP.finite false (16777205 * 2 ^ 125) : F32) = tableAngle 1073741120 := by decide
  rw [e3, tableAngle_toRat]
  norm_num

/-- C3 (amended): starting from angle 0, after N frames the angle is the `float32` value
obtained by N successive `float32` additions of the constant 0.01 (every frame adds the step
exactly once and nothing resets it); for N ≤ 100 it is within 10⁻⁶ of N × 0.01 and grows
with every frame, and after exactly 100 frames it is 16777205 · 2⁻²⁴ = 0.99999934…. For
every N it does not decrease and does not exceed 262144, so that beyond 26214400 frames it
is below N × 0.01. -/
theorem angle_after_frames (h : Host) (frames : List (Int × Int)) (t : Int × Int) :
    (run h frames).angle = angleAfter frames.length
    ∧ (tick h (run h frames) t).angle = stepAngle (run h frames).angle
    ∧ angleAfter 0 = 0
    ∧ (∀ n, angleAfter (n + 1) = angleAfter n + 0.01)
    ∧ (∀ n, n ≤ 100 → |(angleAfter n).toRat - n / 100| ≤ 1 / 10 ^ 6)
    ∧ (∀ n, n < 100 → (angleAfter n).toRat < (angleAfter (n + 1)).toRat)
    ∧ angleAfter 100 = FP.finite false (16777205 * 2 ^ 125)
    ∧ (angleAfter 100).toRat = 16777205 / 2 ^ 24
    ∧ (∀ n, (angleAfter n).toRat ≤ (angleAfter (n + 1)).toRat)
    ∧ (∀ n, (angleAfter n).toRat ≤ 262144)
    ∧ (∀ n : Nat, 26214400 < n → (angleAfter n).toRat < n / 100) := by
  refine ⟨angle_run h frames, ?_, rfl, ?_, ?_, ?_, ?_, ?_, fun n => (angleAfter_mono_le n).1,
    fun n => (angleAfter_mono_le n).2, ?_⟩
  · rw [tick_of_ready h _ t (ready_run h frames)]
    exact (drawScene_frame h t.1 t.2 _).2.2.2.2.2.2.2.2.1
  · intro n
    exact Function.iterate_succ_apply' stepAngle n 0
  · intro n hn
    rw [angleAfter_table n hn, tableAngle_toRat]
    rcases Nat.eq_zero_or_pos n with h0 | h0
    · subst h0
      exact nearHundredth_spec 0 _ (by decide)
    · have := (angleTable_step (n - 1) (by omega)).2.2.2
      have e : n - 1 + 1 = n := by omega
      rw [e] at this
      exact nearHundredth_spec n _ this
  · intro n hn
    rw [angleAfter_table n hn.le, angleAfter_table (n + 1) hn, tableAngle_toRat,
      tableAngle_toRat]
    have := (angleTable_step n hn).2.1
    have hq : ((tableEntry n : ℕ) : ℚ) < (tableEntry (n + 1) : ℕ) := by exact_mod_cast this
    exact div_lt_div_of_pos_right hq (by positivity)
  · rw [angleAfter_table 100 le_rfl]
    decide
  · rw [angleAfter_table 100 le_rfl, tableAngle_toRat]
    have : tableEntry 100 = 1073741120 := by decide
    rw [this]
    norm_num
  · intro n hn
    have h1 := (angleAfter_mono_le n).2
    have h2 : (26214400 : ℚ) < n := by exact_mod_cast hn
    linarith

/-! ## The frame rate display -/

/-- C4: for every frame with positive measured elapsed time `d` (in nanoseconds), the string
`drawScene` writes to the FPS display is "FPS: " followed by a decimal number with exactly
two digits after the point whose value `k / 100` is a nearest multiple of 0.01 to
`1 / (d in seconds)` = `10 ^ 9 / d`; for `d` = 16 ms the value computed is exactly 62.5 and
the string is "FPS: 62.50". -/
theorem fps_display_positive (h : Host) (frames : List (Int × Int)) (t : Int × Int)
    (hd : 0 < timeSub t.2 t.1) :
    ∃ k : Nat,
      (tick h (run h frames) t).fpsText = some ("FPS: " ++ fixed2 k)
      ∧ fixed2 k = toString (k / 100) ++ "." ++ toString (k % 100 / 10) ++ toString (k % 10)
      ∧ 2 * |(k : Int) * timeSub t.2 t.1 - 10 ^ 11| ≤ timeSub t.2 t.1
      ∧ (∀ t0 : Int,
          (tick h (run h frames) (t0, t0 + 16000000)).fpsText = some "FPS: 62.50")
      ∧ ((1.0 : F64) / Seconds 16000000).toRat = 125 / 2 := by
  obtain ⟨e, hn⟩ := fpsDisplay_pos (timeSub t.2 t.1) hd (timeSub_range t.2 t.1).2
  refine ⟨hundredths (fpsMag (timeSub t.2 t.1).toNat), ?_, rfl, hn, ?_, fps_sixteen_ms.2.2⟩
  · rw [tick_fpsText h _ t (ready_run h frames), e]
  · intro t0
    rw [tick_fpsText h _ _ (ready_run h frames)]
    have : timeSub (t0 + 16000000) t0 = 16000000 := by
      simp [timeSub, minDuration, maxDuration]
    simp only [this]
    rw [fps_sixteen_ms.1]

/-- C4 (witness): a frame measured at 16 ms. -/
theorem fps_display_positive_witness :
    0 < timeSub 16000000 0
    ∧ ∃ k : Nat, (tick goodHost (run goodHost []) (0, 16000000)).fpsText =
        some ("FPS: " ++ fixed2 k) :=
  ⟨by decide,
    (fps_display_positive goodHost [] (0, 16000000) (by decide)).imp fun _ hk => hk.1⟩

/-- C5 (counterexample): a frame whose two clock readings are equal divides by zero; the
quotient is +Inf and "FPS: +Inf" is written to the display. -/
theorem zero_elapsed_shows_inf :
    timeSub 5 5 = 0
    ∧ (1.0 : F64) / Seconds 0 = FP.inf false
    ∧ (run goodHost [(5, 5)]).fpsText = some "FPS: +Inf" := by
  decide

/-- C5 (amended): the division in `drawScene` is not guarded and the display is written on
every frame. For a zero elapsed time the string is "FPS: +Inf"; for a negative elapsed time
`d` it is "FPS: -" followed by a nearest two-decimal value of `10 ^ 9 / |d|`, a finite
number. -/
theorem fps_display_unguarded (h : Host) (frames : List (Int × Int)) (t : Int × Int) :
    (tick h (run h frames) t).fpsText = some (fpsDisplay (timeSub t.2 t.1))
    ∧ (timeSub t.2 t.1 = 0 → (tick h (run h frames) t).fpsText = some "FPS: +Inf")
    ∧ (timeSub t.2 t.1 < 0 → ∃ k : Nat,
        (tick h (run h frames) t).fpsText = some ("FPS: -" ++ fixed2 k)
        ∧ 2 * |(k : Int) * (-timeSub t.2 t.1) - 10 ^ 11| ≤ -timeSub t.2 t.1) := by
  have e := tick_fpsText h _ t (ready_run h frames)
  refine ⟨e, ?_, ?_⟩
  · intro h0
    rw [e, h0, fpsDisplay_zero]
  · intro hneg
    obtain ⟨e2, hn⟩ := fpsDisplay_neg (timeSub t.2 t.1) hneg (timeSub_range t.2 t.1).1
    exact ⟨_, by rw [e, e2], hn⟩

end TriangleDemo
